import Mathlib

/-!
Verification of the PennyLane Code Camp 2022 notebooks.

Shallow embedding of the five challenge notebooks:
* the parameter-shift gradient notebook (`src/unnamed/part_000`),
* the bitflip-fidelity notebook (`src/unnamed/part_001`),
* the H/T/CNOT universality notebook,
* the U3/CNOT universality notebook,
* the error-mitigated VQE (ZNE) notebook.

Floating-point values parsed from the JSON test strings are modelled as
rationals (they are exact decimal literals); the quantum simulation is
modelled over the real and complex numbers, which is the mathematical
semantics the `default.qubit`/`default.mixed` devices approximate.
-/

namespace PennyCamp

/-! ## Test harness: `np.allclose`, the `check` functions and the driver loop -/

/-- Numpy's elementwise closeness test `|a - b| <= atol + rtol * |b|`
(`np.isclose` with the default `atol = 1e-8`), on exact rationals. -/
def npClose (rtol atol a b : ℚ) : Bool :=
  decide (|a - b| ≤ atol + rtol * |b|)

/-- Model of `np.allclose(sol, exp, rtol, atol)` for two equally-shaped
1-d arrays (shape mismatch is modelled as failure). -/
def allClose (rtol atol : ℚ) (sol expected : List ℚ) : Bool :=
  sol.length == expected.length &&
    (sol.zip expected).all fun p => npClose rtol atol p.1 p.2

/-- Model of `np.allclose` on 2-d arrays (lists of rows). -/
def allClose2 (rtol atol : ℚ) (sol expected : List (List ℚ)) : Bool :=
  sol.length == expected.length &&
    (sol.zip expected).all fun p => allClose rtol atol p.1 p.2

/-- The propositional counterpart of `npClose`. -/
def CloseTo (rtol atol a b : ℚ) : Prop := |a - b| ≤ atol + rtol * |b|

/-- A Python `check` either returns a value (always `None` in this corpus,
modelled as `Option String` for the harness's truthiness test) or raises an
`AssertionError` carrying a message. -/
abbrev CheckResult := Except String (Option String)

/-- The `check` function of the parameter-shift notebook
(`src/unnamed/part_000` lines 157-162): asserts
`np.allclose(solution_output, expected_output, rtol=1e-4)`. -/
def check_param_shift (solution_output expected_output : List ℚ) : CheckResult :=
  if allClose (1 / 10000) (1 / 100000000) solution_output expected_output then
    Except.ok none
  else
    Except.error "Your gradient isn't quite right!"

/-- The `check` function of the bitflip-fidelity notebook
(`src/unnamed/part_001` lines 166-171): asserts `np.allclose` with
`rtol=1e-4`. -/
def check_bitflip (solution_output expected_output : List ℚ) : CheckResult :=
  if allClose (1 / 10000) (1 / 100000000) solution_output expected_output then
    Except.ok none
  else
    Except.error "Your circuit isn't quite right!"

/-- The `check` function of the error-mitigated VQE notebook: asserts
`np.allclose` with `rtol=1e-2`. -/
def check_vqe (solution_output expected_output : List ℚ) : CheckResult :=
  if allClose (1 / 100) (1 / 100000000) solution_output expected_output then
    Except.ok none
  else
    Except.error "Your extrapolation isn't quite right!"

/-- The hard-coded comparison matrix of the H/T/CNOT universality check:
`qml.matrix(qml.SWAP)(wires=[0, 1])`. -/
def swapMatrixQ : List (List ℚ) :=
  [[1, 0, 0, 0], [0, 0, 1, 0], [0, 1, 0, 0], [0, 0, 0, 1]]

/-- The `check` function of the H/T/CNOT universality notebook: a first
bare assert `np.allclose(matrix_user, qml.matrix(qml.SWAP))` (with numpy's
default `rtol=1e-5`, `atol=1e-8`) and a second bare assert on the gate-name
multiset: `len(set(gates)) == 3` and membership of `Hadamard`, `CNOT`, `T`. -/
def check_ht_cnot (matrix_user : List (List ℚ)) (gates : List String) : CheckResult :=
  if ¬ allClose2 (1 / 100000) (1 / 100000000) matrix_user swapMatrixQ then
    Except.error "AssertionError"
  else if ¬ (gates.toFinset.card == 3 && gates.contains "Hadamard" &&
      gates.contains "CNOT" && gates.contains "T") then
    Except.error "AssertionError"
  else
    Except.ok none

/-- The result of `run(input_)` inside the driver's `try`: either a normal
return value or a raised exception with its message. -/
inductive RunResult (α : Type) where
  | ok : α → RunResult α
  | exc : String → RunResult α

/-- What one iteration of the driver loop does after `run`: it prints one
line, or an exception escapes the loop body (the `try`/`except` only wraps
the call to `run`, so an `AssertionError` raised by `check` is uncaught). -/
inductive DriverOutcome where
  | printed : String → DriverOutcome
  | uncaught : String → DriverOutcome
deriving DecidableEq

/-- Python truthiness of the value returned by `check` (`None` is falsy, a
string is truthy iff nonempty). -/
def pyTruthy : Option String → Bool
  | none => false
  | some s => ¬ s.isEmpty

/-- One iteration of the driver loop, common to all five notebooks:

    try: output = run(input_)
    except Exception as exc: print(f"Runtime Error. ...")
    else:
        if message := check(output, expected_output): print("Wrong Answer...")
        else: print("Correct!")

`fmt` models Python's string formatting of the output, `expected` the
expected-output string of the test case. -/
def driverStep {α : Type} (fmt : α → String) (expected : String)
    (check : α → CheckResult) : RunResult α → DriverOutcome
  | .exc m => .printed ("Runtime Error. " ++ m)
  | .ok out =>
    match check out with
    | .error m => .uncaught m
    | .ok v =>
      if pyTruthy v then
        .printed ("Wrong Answer. Have: " ++ fmt out ++ ". Want: " ++ expected ++ ".")
      else
        .printed "Correct!"

/-- The integer matrix of the U3/CNOT universality check, before the
`1/np.sqrt(2)` prefactor. -/
def u3_intmat : List (List ℚ) :=
  [[1, 1, 0, 0, 0, 0, 0, 0],
   [1, -1, 0, 0, 0, 0, 0, 0],
   [0, 0, -1, -1, 0, 0, 0, 0],
   [0, 0, -1, 1, 0, 0, 0, 0],
   [0, 0, 0, 0, 1, 1, 0, 0],
   [0, 0, 0, 0, 1, -1, 0, 0],
   [0, 0, 0, 0, 0, 0, 1, 1],
   [0, 0, 0, 0, 0, 0, 1, -1]]

/-- The `solution` matrix of the U3/CNOT universality check:
`1/np.sqrt(2)` times `u3_intmat`. -/
noncomputable def u3_solution : List (List ℝ) :=
  u3_intmat.map fun row => row.map fun v => 1 / Real.sqrt 2 * (v : ℝ)

/-- Propositional `np.isclose` over the reals (needed because the U3/CNOT
comparison matrix has irrational entries). -/
def CloseToR (rtol atol a b : ℝ) : Prop := |a - b| ≤ atol + rtol * |b|

/-- Propositional 2-d `np.allclose` over the reals. -/
def AllCloseR2 (rtol atol : ℝ) (sol expected : List (List ℝ)) : Prop :=
  List.Forall₂ (List.Forall₂ (CloseToR rtol atol)) sol expected

open Classical in
/-- The `check` function of the U3/CNOT universality notebook: a bare assert
`np.allclose(matrix_user, solution)` (default `rtol=1e-5`, `atol=1e-8`)
followed by a bare assert `len(set(gates)) == 2 and "U3" in gates and
"CNOT" in gates`. -/
noncomputable def check_u3_cnot (matrix_user : List (List ℝ)) (gates : List String) :
    CheckResult :=
  if ¬ AllCloseR2 (1 / 100000) (1 / 100000000) matrix_user u3_solution then
    Except.error "AssertionError"
  else if ¬ (gates.toFinset.card = 2 ∧ "U3" ∈ gates ∧ "CNOT" ∈ gates) then
    Except.error "AssertionError"
  else
    Except.ok none

/-- `allClose` agrees with the pointwise propositional reading. -/
theorem allClose_iff_forall₂ (rtol atol : ℚ) :
    ∀ sol expected : List ℚ, allClose rtol atol sol expected = true ↔
      List.Forall₂ (CloseTo rtol atol) sol expected := by
  intro sol expected
  induction sol generalizing expected with
  | nil =>
    cases expected <;>
      simp [allClose, List.zip, CloseTo]
  | cons a as ih =>
    cases expected with
    | nil => simp [allClose]
    | cons b bs =>
      have hrec := ih bs
      simp only [allClose, List.zip_cons_cons, List.all_cons, List.length_cons,
        Bool.and_eq_true, beq_iff_eq, Nat.succ_inj, List.forall₂_cons] at *
      constructor
      · rintro ⟨hlen, hc, hall⟩
        refine ⟨by simpa [npClose, CloseTo] using hc, ?_⟩
        exact hrec.mp ⟨hlen, hall⟩
      · rintro ⟨hc, hrest⟩
        have h2 := hrec.mpr hrest
        exact ⟨h2.1, by simpa [npClose, CloseTo] using hc, h2.2⟩

/-- `allClose2` agrees with the row-by-row propositional reading. -/
theorem allClose2_iff_forall₂ (rtol atol : ℚ) :
    ∀ sol expected : List (List ℚ), allClose2 rtol atol sol expected = true ↔
      List.Forall₂ (List.Forall₂ (CloseTo rtol atol)) sol expected := by
  intro sol expected
  induction sol generalizing expected with
  | nil =>
    cases expected <;> simp [allClose2, List.zip]
  | cons a as ih =>
    cases expected with
    | nil => simp [allClose2]
    | cons b bs =>
      have hrec := ih bs
      simp only [allClose2, List.zip_cons_cons, List.all_cons, List.length_cons,
        Bool.and_eq_true, beq_iff_eq, Nat.succ_inj, List.forall₂_cons] at *
      constructor
      · rintro ⟨hlen, hc, hall⟩
        exact ⟨(allClose_iff_forall₂ rtol atol a b).mp hc, hrec.mp ⟨hlen, hall⟩⟩
      · rintro ⟨hc, hrest⟩
        have h2 := hrec.mpr hrest
        exact ⟨h2.1, (allClose_iff_forall₂ rtol atol a b).mpr hc, h2.2⟩

/-- Unfolding lemma: the driver on a normal `run` return dispatches on the
checker's result. -/
theorem driverStep_ok {α : Type} (fmt : α → String) (es : String)
    (check : α → CheckResult) (out : α) :
    driverStep fmt es check (RunResult.ok out) =
      match check out with
      | Except.error m => DriverOutcome.uncaught m
      | Except.ok v =>
        if pyTruthy v then
          DriverOutcome.printed ("Wrong Answer. Have: " ++ fmt out ++ ". Want: " ++ es ++ ".")
        else
          DriverOutcome.printed "Correct!" := rfl

/-- A raised assertion inside the checker escapes the driver's loop body. -/
theorem driverStep_ok_of_error {α : Type} {fmt : α → String} {es : String}
    {check : α → CheckResult} {out : α} {m : String} (h : check out = Except.error m) :
    driverStep fmt es check (RunResult.ok out) = DriverOutcome.uncaught m := by
  rw [driverStep_ok, h]

/-- A checker that returns `None` makes the driver print `Correct!`. -/
theorem driverStep_ok_of_none {α : Type} {fmt : α → String} {es : String}
    {check : α → CheckResult} {out : α} (h : check out = Except.ok none) :
    driverStep fmt es check (RunResult.ok out) = DriverOutcome.printed "Correct!" := by
  rw [driverStep_ok, h]
  rfl

/-- Evaluation of `check_param_shift` by the value of `allClose`. -/
theorem check_param_shift_eq (sol expected : List ℚ) :
    check_param_shift sol expected =
      (if allClose (1 / 10000) (1 / 100000000) sol expected then Except.ok none
       else Except.error "Your gradient isn't quite right!") := rfl

/-- Claim C1, as stated, is false: the H/T/CNOT universality `check` does
not accept on numeric closeness alone.  Feeding it the exact SWAP matrix
(numerically identical to the expected value) together with a gate list
that misses `T` and `CNOT` raises an `AssertionError` even though
`np.allclose` on the matrices holds. -/
theorem check_not_only_numeric :
    check_ht_cnot swapMatrixQ ["Hadamard"] = Except.error "AssertionError" ∧
      allClose2 (1 / 100000) (1 / 100000000) swapMatrixQ swapMatrixQ = true := by
  constructor
  · have hclose : allClose2 (1 / 100000) (1 / 100000000) swapMatrixQ swapMatrixQ = true := by
      norm_num [allClose2, allClose, npClose, swapMatrixQ, abs_eq_max_neg, max_def]
    have hgates : ((["Hadamard"] : List String).toFinset.card == 3 &&
        (["Hadamard"] : List String).contains "Hadamard" &&
        (["Hadamard"] : List String).contains "CNOT" &&
        (["Hadamard"] : List String).contains "T") = false := by decide
    simp [check_ht_cnot, hclose, hgates]
  · norm_num [allClose2, allClose, npClose, swapMatrixQ, abs_eq_max_neg, max_def]

/-- Amended claim C1: each numeric notebook's `check` accepts exactly when
`np.allclose(solution, expected)` holds with the stated `rtol` (1e-4 for
the parameter-shift and bitflip notebooks, 1e-2 for the VQE notebook) and
numpy's default `atol = 1e-8`, numeric closeness being the only condition;
the two universality `check`s compare with `np.allclose` at numpy's default
tolerances (rtol 1e-5, atol 1e-8) and additionally require the gate-name
set of the tape to be exactly the allowed gate set. -/
theorem check_acceptance_characterization :
    (∀ sol expected : List ℚ, check_param_shift sol expected = Except.ok none ↔
        List.Forall₂ (CloseTo (1 / 10000) (1 / 100000000)) sol expected) ∧
    (∀ sol expected : List ℚ, check_bitflip sol expected = Except.ok none ↔
        List.Forall₂ (CloseTo (1 / 10000) (1 / 100000000)) sol expected) ∧
    (∀ sol expected : List ℚ, check_vqe sol expected = Except.ok none ↔
        List.Forall₂ (CloseTo (1 / 100) (1 / 100000000)) sol expected) ∧
    (∀ (m : List (List ℚ)) (gates : List String),
      check_ht_cnot m gates = Except.ok none ↔
        (List.Forall₂ (List.Forall₂ (CloseTo (1 / 100000) (1 / 100000000))) m swapMatrixQ ∧
          gates.toFinset.card = 3 ∧ "Hadamard" ∈ gates ∧ "CNOT" ∈ gates ∧ "T" ∈ gates)) ∧
    (∀ (m : List (List ℝ)) (gates : List String),
      check_u3_cnot m gates = Except.ok none ↔
        (AllCloseR2 (1 / 100000) (1 / 100000000) m u3_solution ∧
          gates.toFinset.card = 2 ∧ "U3" ∈ gates ∧ "CNOT" ∈ gates)) := by
  refine ⟨?_, ?_, ?_, ?_, ?_⟩
  · intro sol expected
    rw [← allClose_iff_forall₂]
    unfold check_param_shift
    cases h : allClose (1 / 10000) (1 / 100000000) sol expected <;> simp [h]
  · intro sol expected
    rw [← allClose_iff_forall₂]
    unfold check_bitflip
    cases h : allClose (1 / 10000) (1 / 100000000) sol expected <;> simp [h]
  · intro sol expected
    rw [← allClose_iff_forall₂]
    unfold check_vqe
    cases h : allClose (1 / 100) (1 / 100000000) sol expected <;> simp [h]
  · intro m gates
    rw [← allClose2_iff_forall₂]
    unfold check_ht_cnot
    cases h : allClose2 (1 / 100000) (1 / 100000000) m swapMatrixQ <;>
      cases hg : (gates.toFinset.card == 3 && gates.contains "Hadamard" &&
        gates.contains "CNOT" && gates.contains "T") <;>
      simp_all [List.elem_iff, and_assoc]
  · intro m gates
    unfold check_u3_cnot
    by_cases h : AllCloseR2 (1 / 100000) (1 / 100000000) m u3_solution <;>
      by_cases hg : (gates.toFinset.card = 2 ∧ "U3" ∈ gates ∧ "CNOT" ∈ gates) <;>
      simp_all [and_assoc]

/-- Claim C7, as stated, is false: on a mismatching output the driver does
not print the "Wrong Answer" line; `check` raises an `AssertionError`,
which escapes the loop body uncaught (the try/except only wraps `run`).
Concretely, with solution `[0]` against expected `[1]` nothing is printed. -/
theorem driver_no_wrong_answer_print :
    driverStep (fun _ => "[0.0]") "[1.0]" (fun s => check_param_shift s [1])
        (RunResult.ok [0]) =
      DriverOutcome.uncaught "Your gradient isn't quite right!" ∧
    ∀ s, driverStep (fun _ => "[0.0]") "[1.0]" (fun s => check_param_shift s [1])
        (RunResult.ok [0]) ≠ DriverOutcome.printed s := by
  have hfail : allClose (1 / 10000) (1 / 100000000) [0] [1] = false := by
    norm_num [allClose, npClose, abs_eq_max_neg, max_def]
  have hchk : check_param_shift [0] [1] =
      Except.error "Your gradient isn't quite right!" := by
    rw [check_param_shift_eq, hfail]
    rfl
  have hstep : driverStep (fun _ => "[0.0]") "[1.0]" (fun s => check_param_shift s [1])
      (RunResult.ok [0]) = DriverOutcome.uncaught "Your gradient isn't quite right!" :=
    driverStep_ok_of_error hchk
  exact ⟨hstep, fun s h => by rw [hstep] at h; exact DriverOutcome.noConfusion h⟩

/-- Amended claim C7: for a test case in which `run` returns normally, the
driver prints "Correct!" when the checker passes; when the solution output
does not match, the checker raises an `AssertionError` that the driver does
not catch, so nothing is printed for that test case (in particular the
"Wrong Answer" line of the driver is unreachable, because `check` always
returns `None` when it returns at all). -/
theorem driver_outcomes (sol expected : List ℚ) (fmt : List ℚ → String) (es : String) :
    (List.Forall₂ (CloseTo (1 / 10000) (1 / 100000000)) sol expected →
      driverStep fmt es (fun s => check_param_shift s expected) (RunResult.ok sol) =
        DriverOutcome.printed "Correct!") ∧
    (¬ List.Forall₂ (CloseTo (1 / 10000) (1 / 100000000)) sol expected →
      driverStep fmt es (fun s => check_param_shift s expected) (RunResult.ok sol) =
        DriverOutcome.uncaught "Your gradient isn't quite right!") ∧
    (∀ msg, driverStep fmt es (fun s => check_param_shift s expected) (RunResult.ok sol) ≠
      DriverOutcome.printed ("Wrong Answer. Have: " ++ msg)) := by
  refine ⟨?_, ?_, ?_⟩
  · intro h
    rw [← allClose_iff_forall₂] at h
    refine driverStep_ok_of_none ?_
    rw [check_param_shift_eq, h]
    rfl
  · intro h
    rw [← allClose_iff_forall₂] at h
    have h' : allClose (1 / 10000) (1 / 100000000) sol expected = false :=
      Bool.eq_false_iff.mpr h
    refine driverStep_ok_of_error ?_
    rw [check_param_shift_eq, h']
    rfl
  · intro msg
    rw [driverStep_ok, check_param_shift_eq]
    cases h : allClose (1 / 10000) (1 / 100000000) sol expected
    · simp [pyTruthy]
    · simp [pyTruthy]
      intro hcon
      have h2 := congrArg String.data hcon
      simp [String.data_append] at h2

/-- Witness for `driver_outcomes` at a concrete passing and failing input. -/
theorem driver_outcomes_witness :
    List.Forall₂ (CloseTo (1 / 10000) (1 / 100000000)) [(1 : ℚ)] [(1 : ℚ)] ∧
      driverStep (fun _ => "x") "y" (fun s => check_param_shift s [(1 : ℚ)])
        (RunResult.ok [(1 : ℚ)]) = DriverOutcome.printed "Correct!" := by
  have hc : List.Forall₂ (CloseTo (1 / 10000) (1 / 100000000)) [(1 : ℚ)] [(1 : ℚ)] := by
    refine List.Forall₂.cons ?_ List.Forall₂.nil
    simp [CloseTo]
    norm_num
  exact ⟨hc, (driver_outcomes [(1 : ℚ)] [(1 : ℚ)] (fun _ => "x") "y").1 hc⟩

/-- Claim C8: if `run` raises, the driver catches the exception, prints
"Runtime Error." followed by the exception message, and never consults the
checker; `check` runs only when `run` returns normally; an assertion
failure inside `check` is not caught (the try/except wraps only `run`) and
is the only way an exception escapes an iteration of the loop. -/
theorem driver_runtime_error {α : Type} (fmt : α → String) (es : String)
    (check : α → CheckResult) :
    (∀ m, driverStep fmt es check (RunResult.exc m) =
      DriverOutcome.printed ("Runtime Error. " ++ m)) ∧
    (∀ m (check' : α → CheckResult),
      driverStep fmt es check (RunResult.exc m) = driverStep fmt es check' (RunResult.exc m)) ∧
    (∀ out m, check out = Except.error m →
      driverStep fmt es check (RunResult.ok out) = DriverOutcome.uncaught m) ∧
    (∀ r m, driverStep fmt es check r = DriverOutcome.uncaught m →
      ∃ out, r = RunResult.ok out ∧ check out = Except.error m) := by
  refine ⟨fun m => rfl, fun m check' => rfl, ?_, ?_⟩
  · intro out m h
    exact driverStep_ok_of_error h
  · intro r m h
    cases r with
    | exc e => exact absurd h (by intro hcon; exact DriverOutcome.noConfusion hcon)
    | ok out =>
      refine ⟨out, rfl, ?_⟩
      rw [driverStep_ok] at h
      cases hc : check out with
      | error e =>
        rw [hc] at h
        cases h
        rfl
      | ok v =>
        rw [hc] at h
        by_cases ht : pyTruthy v = true <;> simp [ht] at h

/-- Witness for `driver_runtime_error`: the uncaught-assert direction at a
concrete failing check. -/
theorem driver_runtime_error_witness :
    check_param_shift [(0 : ℚ)] [(1 : ℚ)] =
        Except.error "Your gradient isn't quite right!" ∧
      driverStep (fun _ => "x") "y" (fun s => check_param_shift s [(1 : ℚ)])
          (RunResult.ok [(0 : ℚ)]) =
        DriverOutcome.uncaught "Your gradient isn't quite right!" := by
  have hfail : allClose (1 / 10000) (1 / 100000000) [(0 : ℚ)] [(1 : ℚ)] = false := by
    norm_num [allClose, npClose, abs_eq_max_neg, max_def]
  have h : check_param_shift [(0 : ℚ)] [(1 : ℚ)] =
      Except.error "Your gradient isn't quite right!" := by
    rw [check_param_shift_eq, hfail]
    rfl
  exact ⟨h, (driver_runtime_error (fun _ => "x") "y"
    (fun s => check_param_shift s [(1 : ℚ)])).2.2.1 [(0 : ℚ)] _ h⟩

/-! ## Parameter-shift notebook: the circuit on `default.qubit` (3 wires)

The state vector of the three-qubit device is a map from the basis values
of wires 0, 1, 2 to complex amplitudes.  The gates below are the exact
unitaries that `qml.Hadamard`, `qml.CRX`, `qml.CRY`, `qml.CRZ` apply, at
the wires used in the notebook's `circuit`. -/

/-- A three-qubit state vector. -/
abbrev QState3 := Fin 2 → Fin 2 → Fin 2 → ℂ

/-- The initial state `|000⟩` of `default.qubit`. -/
def ket000 : QState3 := fun a b c => if a = 0 ∧ b = 0 ∧ c = 0 then 1 else 0

/-- `qml.Hadamard(wires=0)`. -/
noncomputable def applyH0 (ψ : QState3) : QState3 := fun a b c =>
  (ψ 0 b c + (if a = 0 then 1 else -1) * ψ 1 b c) / (Real.sqrt 2 : ℂ)

/-- `qml.Hadamard(wires=1)`. -/
noncomputable def applyH1 (ψ : QState3) : QState3 := fun a b c =>
  (ψ a 0 c + (if b = 0 then 1 else -1) * ψ a 1 c) / (Real.sqrt 2 : ℂ)

/-- `qml.Hadamard(wires=2)`. -/
noncomputable def applyH2 (ψ : QState3) : QState3 := fun a b c =>
  (ψ a b 0 + (if c = 0 then 1 else -1) * ψ a b 1) / (Real.sqrt 2 : ℂ)

/-- `qml.CRX(θ, [1, 2])`: controlled on wire 1, an `RX(θ)` rotation on
wire 2. -/
noncomputable def applyCRX (θ : ℝ) (ψ : QState3) : QState3 := fun a b c =>
  if b = 0 then ψ a b c
  else if c = 0 then
    (Real.cos (θ / 2) : ℂ) * ψ a b 0 - Complex.I * (Real.sin (θ / 2) : ℂ) * ψ a b 1
  else
    (Real.cos (θ / 2) : ℂ) * ψ a b 1 - Complex.I * (Real.sin (θ / 2) : ℂ) * ψ a b 0

/-- `qml.CRY(θ, [0, 1])`: controlled on wire 0, an `RY(θ)` rotation on
wire 1. -/
noncomputable def applyCRY (θ : ℝ) (ψ : QState3) : QState3 := fun a b c =>
  if a = 0 then ψ a b c
  else if b = 0 then
    (Real.cos (θ / 2) : ℂ) * ψ a 0 c - (Real.sin (θ / 2) : ℂ) * ψ a 1 c
  else
    (Real.sin (θ / 2) : ℂ) * ψ a 0 c + (Real.cos (θ / 2) : ℂ) * ψ a 1 c

/-- `qml.CRZ(θ, [2, 0])`: controlled on wire 2, an `RZ(θ)` phase rotation
on wire 0. -/
noncomputable def applyCRZ (θ : ℝ) (ψ : QState3) : QState3 := fun a b c =>
  if c = 0 then ψ a b c
  else if a = 0 then Complex.exp ((-(θ / 2) : ℝ) * Complex.I) * ψ a b c
  else Complex.exp (((θ / 2) : ℝ) * Complex.I) * ψ a b c

/-- The state prepared by the notebook's `circuit` body:
`qml.broadcast(qml.Hadamard, wires=range(3))`, `qml.CRX(params[0], [1,2])`,
`qml.CRY(params[1], [0,1])`, `qml.CRZ(params[2], [2,0])`. -/
noncomputable def finalState (p0 p1 p2 : ℝ) : QState3 :=
  applyCRZ p2 (applyCRY p1 (applyCRX p0 (applyH2 (applyH1 (applyH0 ket000)))))

/-- Expectation value of `qml.PauliZ(0)`. -/
noncomputable def expZ0 (ψ : QState3) : ℝ :=
  ∑ a : Fin 2, ∑ b : Fin 2, ∑ c : Fin 2,
    (if a = 0 then (1 : ℝ) else -1) * Complex.normSq (ψ a b c)

/-- Expectation value of `qml.PauliZ(1)`. -/
noncomputable def expZ1 (ψ : QState3) : ℝ :=
  ∑ a : Fin 2, ∑ b : Fin 2, ∑ c : Fin 2,
    (if b = 0 then (1 : ℝ) else -1) * Complex.normSq (ψ a b c)

/-- Expectation value of `qml.PauliX(2)`. -/
noncomputable def expX2 (ψ : QState3) : ℝ :=
  ∑ a : Fin 2, ∑ b : Fin 2,
    ((starRingEnd ℂ) (ψ a b 0) * ψ a b 1 + (starRingEnd ℂ) (ψ a b 1) * ψ a b 0).re

/-- The notebook's `circuit(params)`: the expectation value of
`qml.PauliZ(0) + qml.PauliZ(1) + qml.PauliX(2)` in the prepared state. -/
noncomputable def circuit (p0 p1 p2 : ℝ) : ℝ :=
  expZ0 (finalState p0 p1 p2) + expZ1 (finalState p0 p1 p2) +
    expX2 (finalState p0 p1 p2)

/-! ## Parameter-shift notebook: `shifts_and_coeffs` and
`my_parameter_shift_grad`

The in-place mutation `params[i] += shift` of the Python code is modelled
by explicit state passing of the parameter list. -/

/-- The notebook's `shifts_and_coeffs()`. -/
noncomputable def shifts_and_coeffs : List ℝ × List ℝ :=
  ([Real.pi / 2, Real.pi * 3 / 2],
   [(Real.sqrt 2 + 1) / (4 * Real.sqrt 2), (Real.sqrt 2 - 1) / (4 * Real.sqrt 2)])

/-- The circuit as a function of the parameter list (`circuit(params)`). -/
noncomputable def circuitL (params : List ℝ) : ℝ :=
  circuit (params.getD 0 0) (params.getD 1 0) (params.getD 2 0)

/-- One `c, s` term of the loop body of `my_parameter_shift_grad`:
`params[i] += shift; t = circuit(params); params[i] -= 2*shift;
t -= circuit(params); params[i] += shift`.  Returns the parameter list
after the three in-place updates together with the difference of the two
circuit evaluations. -/
noncomputable def shiftTerm (params : List ℝ) (i : ℕ) (s : ℝ) : List ℝ × ℝ :=
  let pA := params.set i (params.getD i 0 + s)
  let g1 := circuitL pA
  let pB := pA.set i (pA.getD i 0 - 2 * s)
  let g2 := circuitL pB
  let pC := pB.set i (pB.getD i 0 + s)
  (pC, g1 - g2)

/-- One iteration of the loop of `my_parameter_shift_grad`: the `c1, s1`
term followed by the `c2, s2` term, combined as
`coeffs[0] * t1 - coeffs[1] * t2`. -/
noncomputable def loopIter (params : List ℝ) (i : ℕ) : List ℝ × ℝ :=
  let r1 := shiftTerm params i (shifts_and_coeffs.1.getD 0 0)
  let r2 := shiftTerm r1.1 i (shifts_and_coeffs.1.getD 1 0)
  (r2.1, shifts_and_coeffs.2.getD 0 0 * r1.2 - shifts_and_coeffs.2.getD 1 0 * r2.2)

/-- The loop `for i in range(len(params))` of `my_parameter_shift_grad`,
threading the mutated parameter list and collecting the gradient entries. -/
noncomputable def psGradAux (params : List ℝ) : List ℝ × List ℝ :=
  (List.range params.length).foldl
    (fun st i => ((loopIter st.1 i).1, st.2 ++ [(loopIter st.1 i).2]))
    (params, [])

/-- The notebook's `np.round_(gradient, decimals=5)` on one entry. -/
noncomputable def round5 (x : ℝ) : ℝ := (round (x * 100000) : ℤ) / 100000

/-- The notebook's `my_parameter_shift_grad(params)`: the loop above,
rounded to 5 decimal places. -/
noncomputable def my_parameter_shift_grad (params : List ℝ) : List ℝ :=
  ((psGradAux params).2).map round5

/-- The `run` of the parameter-shift notebook, with the caller-visible
state of the (mutated) parameter list made explicit: it returns the final
state of the parameter list together with the gradient output. -/
noncomputable def run_param_shift (params : List ℝ) : List ℝ × List ℝ :=
  ((psGradAux params).1, my_parameter_shift_grad params)

/-- After the three Hadamards the state is uniform with amplitude
`1/√2³`. -/
theorem state_after_hadamards (a b c : Fin 2) :
    applyH2 (applyH1 (applyH0 ket000)) a b c = 1 / (Real.sqrt 2 : ℂ) ^ 3 := by
  fin_cases a <;> fin_cases b <;> fin_cases c <;>
    · simp [applyH0, applyH1, applyH2, ket000]
      ring

/-- Euler form of the `RZ` phase `e^{-iθ/2}`. -/
theorem exp_neg_half_eq (θ : ℝ) :
    Complex.exp ((-(θ / 2) : ℝ) * Complex.I) =
      (Real.cos (θ / 2) : ℂ) - (Real.sin (θ / 2) : ℂ) * Complex.I := by
  rw [Complex.exp_mul_I]
  push_cast
  rw [Complex.cos_neg, Complex.sin_neg]
  ring

/-- Euler form of the `RZ` phase `e^{iθ/2}`. -/
theorem exp_pos_half_eq (θ : ℝ) :
    Complex.exp (((θ / 2) : ℝ) * Complex.I) =
      (Real.cos (θ / 2) : ℂ) + (Real.sin (θ / 2) : ℂ) * Complex.I := by
  rw [Complex.exp_mul_I]
  push_cast
  ring

/-- Closed form of the amplitudes of the state prepared by `circuit`. -/
theorem finalState_apply (p0 p1 p2 : ℝ) (a b c : Fin 2) :
    finalState p0 p1 p2 a b c =
      (if c = 0 then 1 else
        if a = 0 then (Real.cos (p2 / 2) : ℂ) - (Real.sin (p2 / 2) : ℂ) * Complex.I
        else (Real.cos (p2 / 2) : ℂ) + (Real.sin (p2 / 2) : ℂ) * Complex.I) *
      ((if a = 0 then
          (if b = 0 then 1 else
            (Real.cos (p0 / 2) : ℂ) - Complex.I * (Real.sin (p0 / 2) : ℂ))
        else
          (if b = 0 then
            (Real.cos (p1 / 2) : ℂ) - (Real.sin (p1 / 2) : ℂ) *
              ((Real.cos (p0 / 2) : ℂ) - Complex.I * (Real.sin (p0 / 2) : ℂ))
          else
            (Real.sin (p1 / 2) : ℂ) + (Real.cos (p1 / 2) : ℂ) *
              ((Real.cos (p0 / 2) : ℂ) - Complex.I * (Real.sin (p0 / 2) : ℂ)))) *
        (1 / (Real.sqrt 2 : ℂ) ^ 3)) := by
  have h10 : ((1 : Fin 2) = 0) = False := eq_false (by decide)
  fin_cases a <;> fin_cases b <;> fin_cases c <;>
    · simp only [finalState, applyCRZ, applyCRY, applyCRX, state_after_hadamards,
        exp_neg_half_eq, exp_pos_half_eq]
      simp only [Fin.mk_zero, Fin.mk_one, Fin.isValue, h10, reduceIte, if_false,
        if_true]
      ring

/-- Closed form of the notebook's circuit expectation value:
`⟨Z₀⟩ + ⟨Z₁⟩ + ⟨X₂⟩ = cos(p₂/2) - sin(p₁)·cos(p₀/2)/2`. -/
theorem circuit_eq (p0 p1 p2 : ℝ) :
    circuit p0 p1 p2 = Real.cos (p2 / 2) - Real.sin p1 * Real.cos (p0 / 2) / 2 := by
  have hd : Real.sin p1 = 2 * Real.sin (p1 / 2) * Real.cos (p1 / 2) := by
    rw [← Real.sin_two_mul]
    congr 1
    ring
  have h0 := Real.sin_sq_add_cos_sq (p0 / 2)
  have h1 := Real.sin_sq_add_cos_sq (p1 / 2)
  have h2 := Real.sin_sq_add_cos_sq (p2 / 2)
  have h6 : (Real.sqrt 2 : ℝ) ^ 6 = 8 := by
    have hsq : (Real.sqrt 2 : ℝ) ^ 2 = 2 := Real.sq_sqrt (by norm_num)
    calc (Real.sqrt 2 : ℝ) ^ 6 = ((Real.sqrt 2) ^ 2) ^ 3 := by ring
    _ = 8 := by rw [hsq]; norm_num
  have hr : ((Real.sqrt 2 : ℝ))⁻¹ ^ 6 = 1 / 8 := by
    rw [inv_pow, h6]
    norm_num
  have h10 : ((1 : Fin 2) = 0) = False := eq_false (by decide)
  have hcast : (1 / (Real.sqrt 2 : ℂ) ^ 3) = ((((Real.sqrt 2)⁻¹ ^ 3 : ℝ)) : ℂ) := by
    push_cast
    ring
  rw [hd]
  unfold circuit expZ0 expZ1 expX2
  simp only [finalState_apply, hcast, Fin.sum_univ_two, h10, reduceIte, if_true, if_false]
  simp only [map_mul, map_sub, map_add, map_one, Complex.conj_I, Complex.conj_ofReal,
    Complex.normSq_apply, Complex.add_re, Complex.add_im, Complex.sub_re, Complex.sub_im,
    Complex.mul_re, Complex.mul_im, Complex.one_re, Complex.one_im, Complex.I_re,
    Complex.I_im, Complex.ofReal_re, Complex.ofReal_im, Complex.neg_re, Complex.neg_im]
  set s0 := Real.sin (p0 / 2) with hdefs0
  set c0 := Real.cos (p0 / 2) with hdefc0
  set s1 := Real.sin (p1 / 2) with hdefs1
  set c1 := Real.cos (p1 / 2) with hdefc1
  set s2 := Real.sin (p2 / 2) with hdefs2
  set c2 := Real.cos (p2 / 2) with hdefc2
  linear_combination
    ((1 + (s2 ^ 2 + c2 ^ 2)) * (1 + (s0 ^ 2 + c0 ^ 2)) * (1 - (s1 ^ 2 + c1 ^ 2)) +
      (1 + (s2 ^ 2 + c2 ^ 2)) * (1 - (s0 ^ 2 + c0 ^ 2)) * (1 + c1 ^ 2 - s1 ^ 2) -
      4 * (1 + (s2 ^ 2 + c2 ^ 2)) * s1 * c1 * c0 +
      2 * c2 * (1 + (s0 ^ 2 + c0 ^ 2)) * (1 + (s1 ^ 2 + c1 ^ 2))) * hr +
    (-(1 / 8) * (1 + (s2 ^ 2 + c2 ^ 2)) * (1 + c1 ^ 2 - s1 ^ 2) + c2 / 2 +
      c2 * ((s1 ^ 2 + c1 ^ 2) - 1) / 4) * h0 +
    (-(1 / 8) * (1 + (s2 ^ 2 + c2 ^ 2)) * (1 + (s0 ^ 2 + c0 ^ 2)) + c2 / 2) * h1 +
    (-(s1 * c1 * c0) / 2) * h2

/-! ## Parameter-shift notebook: list-mutation lemmas and gradient values -/

/-- Reading back an in-range entry just written by `List.set`. -/
theorem list_getD_set_self (l : List ℝ) (i : ℕ) (a : ℝ) (h : i < l.length) :
    (l.set i a).getD i 0 = a := by
  have h2 : i < (l.set i a).length := by simpa using h
  rw [List.getD_eq_getElem _ _ h2]
  simp [List.getElem_set]

/-- Writing back the value an in-range entry already holds is a no-op. -/
theorem list_set_getD_self (l : List ℝ) (i : ℕ) (h : i < l.length) :
    l.set i (l.getD i 0) = l := by
  rw [List.getD_eq_getElem _ _ h]
  apply List.ext_getElem
  · simp
  · intro n h1 h2
    simp only [List.getElem_set]
    split
    · rename_i he
      subst he
      rfl
    · rfl

/-- The three in-place updates `+s`, `-2s`, `+s` of one shift term cancel:
the parameter list is restored. -/
theorem shiftTerm_fst (params : List ℝ) (i : ℕ) (s : ℝ) :
    (shiftTerm params i s).1 = params := by
  by_cases h : i < params.length
  · simp only [shiftTerm]
    rw [list_getD_set_self _ _ _ h]
    simp only [List.set_set]
    rw [list_getD_set_self _ _ _ h]
    rw [show params.getD i 0 + s - 2 * s + s = params.getD i 0 by ring]
    exact list_set_getD_self params i h
  · simp only [shiftTerm]
    simp [List.set_eq_of_length_le (le_of_not_lt h)]

/-- Each loop iteration of `my_parameter_shift_grad` restores the
parameter list. -/
theorem loopIter_fst (params : List ℝ) (i : ℕ) :
    (loopIter params i).1 = params := by
  simp only [loopIter]
  rw [shiftTerm_fst, shiftTerm_fst]

/-- The whole gradient loop leaves the parameter list unchanged. -/
theorem psFold_fst (idxs : List ℕ) (params : List ℝ) : ∀ acc : List ℝ,
    ((idxs.foldl (fun st i => ((loopIter st.1 i).1, st.2 ++ [(loopIter st.1 i).2]))
      (params, acc)).1) = params := by
  induction idxs with
  | nil => intro acc; rfl
  | cons i is ih =>
    intro acc
    rw [List.foldl_cons]
    show (List.foldl _ ((loopIter params i).1, acc ++ [(loopIter params i).2]) is).1 = params
    rw [loopIter_fst]
    exact ih _

/-- `my_parameter_shift_grad` returns with `params` equal to its original
value. -/
theorem psGradAux_fst (params : List ℝ) : (psGradAux params).1 = params :=
  psFold_fst _ _ _

/-- On a three-parameter list the loop produces exactly the three loop
iteration values. -/
theorem psGradAux_three (p0 p1 p2 : ℝ) :
    (psGradAux [p0, p1, p2]).2 =
      [(loopIter [p0, p1, p2] 0).2, (loopIter [p0, p1, p2] 1).2,
        (loopIter [p0, p1, p2] 2).2] := by
  unfold psGradAux
  rw [show ([p0, p1, p2] : List ℝ).length = 3 from rfl,
    show List.range 3 = [0, 1, 2] from by decide]
  simp only [List.foldl_cons, List.foldl_nil, loopIter_fst]
  simp

/-- Value of the first gradient entry: the exact partial derivative
`∂f/∂θ₀ = sin(p₁)·sin(p₀/2)/4`. -/
theorem loopIter_zero (p0 p1 p2 : ℝ) :
    (loopIter [p0, p1, p2] 0).2 = Real.sin p1 * Real.sin (p0 / 2) / 4 := by
  have hc34 : Real.cos (3 * Real.pi / 4) = -(Real.sqrt 2 / 2) := by
    rw [show (3 * Real.pi / 4 : ℝ) = Real.pi - Real.pi / 4 by ring, Real.cos_pi_sub,
      Real.cos_pi_div_four]
  have hs34 : Real.sin (3 * Real.pi / 4) = Real.sqrt 2 / 2 := by
    rw [show (3 * Real.pi / 4 : ℝ) = Real.pi - Real.pi / 4 by ring, Real.sin_pi_sub,
      Real.sin_pi_div_four]
  have e1 : Real.cos (p0 * (1 / 2) + Real.pi * (1 / 4)) =
      Real.cos (p0 * (1 / 2)) * (Real.sqrt 2 / 2) -
        Real.sin (p0 * (1 / 2)) * (Real.sqrt 2 / 2) := by
    rw [show p0 * (1 / 2) + Real.pi * (1 / 4) = p0 / 2 + Real.pi / 4 by ring,
      Real.cos_add, Real.cos_pi_div_four, Real.sin_pi_div_four]
    ring_nf
  have e2 : Real.cos (p0 * (1 / 2) + Real.pi * (-1 / 4)) =
      Real.cos (p0 * (1 / 2)) * (Real.sqrt 2 / 2) +
        Real.sin (p0 * (1 / 2)) * (Real.sqrt 2 / 2) := by
    rw [show p0 * (1 / 2) + Real.pi * (-1 / 4) = p0 / 2 - Real.pi / 4 by ring,
      Real.cos_sub, Real.cos_pi_div_four, Real.sin_pi_div_four]
    ring_nf
  have e3 : Real.cos (p0 * (1 / 2) + Real.pi * (3 / 4)) =
      -(Real.cos (p0 * (1 / 2)) * (Real.sqrt 2 / 2)) -
        Real.sin (p0 * (1 / 2)) * (Real.sqrt 2 / 2) := by
    rw [show p0 * (1 / 2) + Real.pi * (3 / 4) = p0 / 2 + 3 * Real.pi / 4 by ring,
      Real.cos_add, hc34, hs34]
    ring_nf
  have e4 : Real.cos (p0 * (1 / 2) + Real.pi * (-3 / 4)) =
      -(Real.cos (p0 * (1 / 2)) * (Real.sqrt 2 / 2)) +
        Real.sin (p0 * (1 / 2)) * (Real.sqrt 2 / 2) := by
    rw [show p0 * (1 / 2) + Real.pi * (-3 / 4) = p0 / 2 - 3 * Real.pi / 4 by ring,
      Real.cos_sub, hc34, hs34]
    ring_nf
  have hinv : Real.sqrt 2 * (Real.sqrt 2)⁻¹ = 1 :=
    mul_inv_cancel₀ (by positivity)
  simp only [loopIter, shiftTerm, shifts_and_coeffs, circuitL, List.set_cons_zero,
    List.getD_cons_zero, List.getD_cons_succ]
  simp only [circuit_eq]
  ring_nf
  rw [e1, e2, e3, e4]
  linear_combination (Real.sin p1 * Real.sin (p0 * (1 / 2)) / 4) * hinv

/-- Value of the second gradient entry: the exact partial derivative
`∂f/∂θ₁ = -cos(p₁)·cos(p₀/2)/2`. -/
theorem loopIter_one (p0 p1 p2 : ℝ) :
    (loopIter [p0, p1, p2] 1).2 = -(Real.cos p1 * Real.cos (p0 / 2)) / 2 := by
  have f1 : Real.sin (p1 + Real.pi * (1 / 2)) = Real.cos p1 := by
    rw [show p1 + Real.pi * (1 / 2) = p1 + Real.pi / 2 by ring, Real.sin_add_pi_div_two]
  have f2 : Real.sin (p1 + Real.pi * (-1 / 2)) = -Real.cos p1 := by
    rw [show p1 + Real.pi * (-1 / 2) = p1 - Real.pi / 2 by ring, Real.sin_sub_pi_div_two]
  have f3 : Real.sin (p1 + Real.pi * (3 / 2)) = -Real.cos p1 := by
    rw [show p1 + Real.pi * (3 / 2) = (p1 + Real.pi) + Real.pi / 2 by ring,
      Real.sin_add_pi_div_two, Real.cos_add_pi]
  have f4 : Real.sin (p1 + Real.pi * (-3 / 2)) = Real.cos p1 := by
    rw [show p1 + Real.pi * (-3 / 2) = (p1 - Real.pi) - Real.pi / 2 by ring,
      Real.sin_sub_pi_div_two, Real.cos_sub_pi]
    ring
  have hinv : Real.sqrt 2 * (Real.sqrt 2)⁻¹ = 1 :=
    mul_inv_cancel₀ (by positivity)
  simp only [loopIter, shiftTerm, shifts_and_coeffs, circuitL, List.set_cons_zero,
    List.set_cons_succ, List.getD_cons_zero, List.getD_cons_succ]
  simp only [circuit_eq]
  ring_nf
  rw [f1, f2, f3, f4]
  linear_combination (-(Real.cos (p0 * (1 / 2)) * Real.cos p1) / 2) * hinv

/-- Value of the third gradient entry: the exact partial derivative
`∂f/∂θ₂ = -sin(p₂/2)/2`. -/
theorem loopIter_two (p0 p1 p2 : ℝ) :
    (loopIter [p0, p1, p2] 2).2 = -Real.sin (p2 / 2) / 2 := by
  have hc34 : Real.cos (3 * Real.pi / 4) = -(Real.sqrt 2 / 2) := by
    rw [show (3 * Real.pi / 4 : ℝ) = Real.pi - Real.pi / 4 by ring, Real.cos_pi_sub,
      Real.cos_pi_div_four]
  have hs34 : Real.sin (3 * Real.pi / 4) = Real.sqrt 2 / 2 := by
    rw [show (3 * Real.pi / 4 : ℝ) = Real.pi - Real.pi / 4 by ring, Real.sin_pi_sub,
      Real.sin_pi_div_four]
  have e1 : Real.cos (p2 * (1 / 2) + Real.pi * (1 / 4)) =
      Real.cos (p2 * (1 / 2)) * (Real.sqrt 2 / 2) -
        Real.sin (p2 * (1 / 2)) * (Real.sqrt 2 / 2) := by
    rw [show p2 * (1 / 2) + Real.pi * (1 / 4) = p2 / 2 + Real.pi / 4 by ring,
      Real.cos_add, Real.cos_pi_div_four, Real.sin_pi_div_four]
    ring_nf
  have e2 : Real.cos (p2 * (1 / 2) + Real.pi * (-1 / 4)) =
      Real.cos (p2 * (1 / 2)) * (Real.sqrt 2 / 2) +
        Real.sin (p2 * (1 / 2)) * (Real.sqrt 2 / 2) := by
    rw [show p2 * (1 / 2) + Real.pi * (-1 / 4) = p2 / 2 - Real.pi / 4 by ring,
      Real.cos_sub, Real.cos_pi_div_four, Real.sin_pi_div_four]
    ring_nf
  have e3 : Real.cos (p2 * (1 / 2) + Real.pi * (3 / 4)) =
      -(Real.cos (p2 * (1 / 2)) * (Real.sqrt 2 / 2)) -
        Real.sin (p2 * (1 / 2)) * (Real.sqrt 2 / 2) := by
    rw [show p2 * (1 / 2) + Real.pi * (3 / 4) = p2 / 2 + 3 * Real.pi / 4 by ring,
      Real.cos_add, hc34, hs34]
    ring_nf
  have e4 : Real.cos (p2 * (1 / 2) + Real.pi * (-3 / 4)) =
      -(Real.cos (p2 * (1 / 2)) * (Real.sqrt 2 / 2)) +
        Real.sin (p2 * (1 / 2)) * (Real.sqrt 2 / 2) := by
    rw [show p2 * (1 / 2) + Real.pi * (-3 / 4) = p2 / 2 - 3 * Real.pi / 4 by ring,
      Real.cos_sub, hc34, hs34]
    ring_nf
  have hinv : Real.sqrt 2 * (Real.sqrt 2)⁻¹ = 1 :=
    mul_inv_cancel₀ (by positivity)
  simp only [loopIter, shiftTerm, shifts_and_coeffs, circuitL, List.set_cons_zero,
    List.set_cons_succ, List.getD_cons_zero, List.getD_cons_succ]
  simp only [circuit_eq]
  ring_nf
  rw [e1, e2, e3, e4]
  linear_combination (-Real.sin (p2 * (1 / 2)) / 2) * hinv

/-- The four-term shift combination, written exactly as in the claim, has
the same value as the corresponding loop iteration for wire-parameter 0. -/
theorem loopIter_zero_combo (p0 p1 p2 : ℝ) :
    (loopIter [p0, p1, p2] 0).2 =
      (Real.sqrt 2 + 1) / (4 * Real.sqrt 2) *
          (circuit (p0 + Real.pi / 2) p1 p2 - circuit (p0 - Real.pi / 2) p1 p2) -
        (Real.sqrt 2 - 1) / (4 * Real.sqrt 2) *
          (circuit (p0 + Real.pi * 3 / 2) p1 p2 -
            circuit (p0 - Real.pi * 3 / 2) p1 p2) := by
  simp only [loopIter, shiftTerm, shifts_and_coeffs, circuitL, List.set_cons_zero,
    List.set_cons_succ, List.getD_cons_zero, List.getD_cons_succ]
  ring_nf

/-- The four-term shift combination for wire-parameter 1. -/
theorem loopIter_one_combo (p0 p1 p2 : ℝ) :
    (loopIter [p0, p1, p2] 1).2 =
      (Real.sqrt 2 + 1) / (4 * Real.sqrt 2) *
          (circuit p0 (p1 + Real.pi / 2) p2 - circuit p0 (p1 - Real.pi / 2) p2) -
        (Real.sqrt 2 - 1) / (4 * Real.sqrt 2) *
          (circuit p0 (p1 + Real.pi * 3 / 2) p2 -
            circuit p0 (p1 - Real.pi * 3 / 2) p2) := by
  simp only [loopIter, shiftTerm, shifts_and_coeffs, circuitL, List.set_cons_zero,
    List.set_cons_succ, List.getD_cons_zero, List.getD_cons_succ]
  ring_nf

/-- The four-term shift combination for wire-parameter 2. -/
theorem loopIter_two_combo (p0 p1 p2 : ℝ) :
    (loopIter [p0, p1, p2] 2).2 =
      (Real.sqrt 2 + 1) / (4 * Real.sqrt 2) *
          (circuit p0 p1 (p2 + Real.pi / 2) - circuit p0 p1 (p2 - Real.pi / 2)) -
        (Real.sqrt 2 - 1) / (4 * Real.sqrt 2) *
          (circuit p0 p1 (p2 + Real.pi * 3 / 2) -
            circuit p0 p1 (p2 - Real.pi * 3 / 2)) := by
  simp only [loopIter, shiftTerm, shifts_and_coeffs, circuitL, List.set_cons_zero,
    List.set_cons_succ, List.getD_cons_zero, List.getD_cons_succ]
  ring_nf

/-- Derivative of the circuit in its first parameter. -/
theorem hasDerivAt_circuit_p0 (p0 p1 p2 : ℝ) :
    HasDerivAt (fun t => circuit t p1 p2) (Real.sin p1 * Real.sin (p0 / 2) / 4) p0 := by
  have hfun : (fun t => circuit t p1 p2) =
      fun t => Real.cos (p2 / 2) - Real.sin p1 * Real.cos (t / 2) / 2 :=
    funext fun t => circuit_eq t p1 p2
  rw [hfun]
  have h1 : HasDerivAt (fun t : ℝ => t / 2) (1 / 2) p0 := (hasDerivAt_id p0).div_const 2
  have h2 := h1.cos
  have h3 := (h2.const_mul (Real.sin p1)).div_const 2
  have h4 := (hasDerivAt_const p0 (Real.cos (p2 / 2))).sub h3
  convert h4 using 1
  ring

/-- Derivative of the circuit in its second parameter. -/
theorem hasDerivAt_circuit_p1 (p0 p1 p2 : ℝ) :
    HasDerivAt (fun t => circuit p0 t p2) (-(Real.cos p1 * Real.cos (p0 / 2)) / 2) p1 := by
  have hfun : (fun t => circuit p0 t p2) =
      fun t => Real.cos (p2 / 2) - Real.sin t * Real.cos (p0 / 2) / 2 :=
    funext fun t => circuit_eq p0 t p2
  rw [hfun]
  have h1 := (Real.hasDerivAt_sin p1).mul_const (Real.cos (p0 / 2))
  have h2 := h1.div_const 2
  have h3 := (hasDerivAt_const p1 (Real.cos (p2 / 2))).sub h2
  convert h3 using 1
  ring

/-- Derivative of the circuit in its third parameter. -/
theorem hasDerivAt_circuit_p2 (p0 p1 p2 : ℝ) :
    HasDerivAt (fun t => circuit p0 p1 t) (-Real.sin (p2 / 2) / 2) p2 := by
  have hfun : (fun t => circuit p0 p1 t) =
      fun t => Real.cos (t / 2) - Real.sin p1 * Real.cos (p0 / 2) / 2 :=
    funext fun t => circuit_eq p0 p1 t
  rw [hfun]
  have h1 : HasDerivAt (fun t : ℝ => t / 2) (1 / 2) p2 := (hasDerivAt_id p2).div_const 2
  have h2 := h1.cos
  have h3 := h2.sub_const (Real.sin p1 * Real.cos (p0 / 2) / 2)
  convert h3 using 1
  ring

/-- Claim C2: on a three-parameter list, `my_parameter_shift_grad` returns
the exact analytic gradient of `circuit`, rounded to five decimals; the
four-term combination with shifts `π/2`, `3π/2` and coefficients
`(√2±1)/(4√2)` equals the corresponding partial derivative. -/
theorem my_parameter_shift_grad_exact (p0 p1 p2 : ℝ) :
    my_parameter_shift_grad [p0, p1, p2] =
      [round5 (Real.sin p1 * Real.sin (p0 / 2) / 4),
        round5 (-(Real.cos p1 * Real.cos (p0 / 2)) / 2),
        round5 (-Real.sin (p2 / 2) / 2)] ∧
    HasDerivAt (fun t => circuit t p1 p2) (Real.sin p1 * Real.sin (p0 / 2) / 4) p0 ∧
    HasDerivAt (fun t => circuit p0 t p2) (-(Real.cos p1 * Real.cos (p0 / 2)) / 2) p1 ∧
    HasDerivAt (fun t => circuit p0 p1 t) (-Real.sin (p2 / 2) / 2) p2 ∧
    ((Real.sqrt 2 + 1) / (4 * Real.sqrt 2) *
        (circuit (p0 + Real.pi / 2) p1 p2 - circuit (p0 - Real.pi / 2) p1 p2) -
      (Real.sqrt 2 - 1) / (4 * Real.sqrt 2) *
        (circuit (p0 + Real.pi * 3 / 2) p1 p2 - circuit (p0 - Real.pi * 3 / 2) p1 p2) =
      Real.sin p1 * Real.sin (p0 / 2) / 4) ∧
    ((Real.sqrt 2 + 1) / (4 * Real.sqrt 2) *
        (circuit p0 (p1 + Real.pi / 2) p2 - circuit p0 (p1 - Real.pi / 2) p2) -
      (Real.sqrt 2 - 1) / (4 * Real.sqrt 2) *
        (circuit p0 (p1 + Real.pi * 3 / 2) p2 - circuit p0 (p1 - Real.pi * 3 / 2) p2) =
      -(Real.cos p1 * Real.cos (p0 / 2)) / 2) ∧
    ((Real.sqrt 2 + 1) / (4 * Real.sqrt 2) *
        (circuit p0 p1 (p2 + Real.pi / 2) - circuit p0 p1 (p2 - Real.pi / 2)) -
      (Real.sqrt 2 - 1) / (4 * Real.sqrt 2) *
        (circuit p0 p1 (p2 + Real.pi * 3 / 2) - circuit p0 p1 (p2 - Real.pi * 3 / 2)) =
      -Real.sin (p2 / 2) / 2) := by
  refine ⟨?_, hasDerivAt_circuit_p0 p0 p1 p2, hasDerivAt_circuit_p1 p0 p1 p2,
    hasDerivAt_circuit_p2 p0 p1 p2, ?_, ?_, ?_⟩
  · unfold my_parameter_shift_grad
    rw [psGradAux_three, loopIter_zero, loopIter_one, loopIter_two]
    rfl
  · rw [← loopIter_zero_combo, loopIter_zero]
  · rw [← loopIter_one_combo, loopIter_one]
  · rw [← loopIter_two_combo, loopIter_two]

/-- Claim C10: `my_parameter_shift_grad` mutates the parameter list in
place but the shifts cancel, so after each shift term, after each loop
iteration and at return the list equals its original value. -/
theorem my_parameter_shift_grad_restores (params : List ℝ) :
    (∀ i s, (shiftTerm params i s).1 = params) ∧
    (∀ i, (loopIter params i).1 = params) ∧
    (psGradAux params).1 = params :=
  ⟨fun i s => shiftTerm_fst params i s, fun i => loopIter_fst params i,
    psGradAux_fst params⟩

/-! ## Bitflip-fidelity notebook (`default.mixed`, 2 wires)

Density matrices are indexed by pairs of basis values of wires 0 and 1;
gates act by conjugation `ρ ↦ U ρ U†` and `qml.BitFlip(p, w)` is the
channel `ρ ↦ (1-p) ρ + p X_w ρ X_w`. -/

/-- Two-qubit basis index (wire 0, wire 1). -/
abbrev Q2 := Fin 2 × Fin 2

/-- A two-qubit density matrix. -/
abbrev DMat := Q2 → Q2 → ℂ

/-- Conjugation `ρ ↦ U ρ U†` of a density matrix by a gate unitary, as
performed by `default.mixed` for each applied operation. -/
noncomputable def evolve (U : Q2 → Q2 → ℂ) (ρ : DMat) : DMat := fun x y =>
  ∑ a : Q2, ∑ b : Q2, U x a * ρ a b * (starRingEnd ℂ) (U y b)

/-- The initial density matrix `|00⟩⟨00|`. -/
def rho00 : DMat := fun x y => if x = (0, 0) ∧ y = (0, 0) then 1 else 0

/-- `qml.Hadamard(wires=0)` as a two-qubit matrix. -/
noncomputable def hadamard0 : Q2 → Q2 → ℂ := fun x y =>
  if x.2 = y.2 then (if x.1 = 1 ∧ y.1 = 1 then -1 else 1) / (Real.sqrt 2 : ℂ) else 0

/-- `qml.CNOT(wires=[0, 1])`. -/
def cnot01 : Q2 → Q2 → ℂ := fun x y =>
  if x.1 = y.1 ∧ x.2 = y.1 + y.2 then 1 else 0

/-- `qml.PauliX` on wire 0, the Kraus operator of the first bitflip. -/
def pauliX0 : Q2 → Q2 → ℂ := fun x y => if x.1 ≠ y.1 ∧ x.2 = y.2 then 1 else 0

/-- `qml.PauliX` on wire 1, the Kraus operator of the second bitflip. -/
def pauliX1 : Q2 → Q2 → ℂ := fun x y => if x.1 = y.1 ∧ x.2 ≠ y.2 then 1 else 0

/-- The state returned by the notebook's error-free `circuit()`:
`qml.Hadamard(0)` then `qml.CNOT([0, 1])` from `|00⟩⟨00|`. -/
noncomputable def circuitDM : DMat := evolve cnot01 (evolve hadamard0 rho00)

/-- `qml.BitFlip(p, wires=0)`. -/
noncomputable def bitFlip0 (p : ℝ) (ρ : DMat) : DMat := fun x y =>
  ((1 - p : ℝ) : ℂ) * ρ x y + ((p : ℝ) : ℂ) * evolve pauliX0 ρ x y

/-- `qml.BitFlip(p, wires=1)`. -/
noncomputable def bitFlip1 (p : ℝ) (ρ : DMat) : DMat := fun x y =>
  ((1 - p : ℝ) : ℂ) * ρ x y + ((p : ℝ) : ℂ) * evolve pauliX1 ρ x y

/-- The state returned by the notebook's `bitflip_circuit(p)`: Hadamard,
CNOT, then a bitflip of probability `p` on each wire. -/
noncomputable def bitflip_circuit (p : ℝ) : DMat := bitFlip1 p (bitFlip0 p circuitDM)

/-- Model of the external `qml.math.fidelity(rho, sigma)` in the only case
the notebook uses, where the second state `sigma` is pure: there the
general fidelity `(Tr √(√ρ σ √ρ))²` reduces to `Tr(ρ σ)`. -/
noncomputable def fidelity_pure (ρ σ : DMat) : ℝ :=
  (∑ x : Q2, ∑ y : Q2, ρ x y * σ y x).re

/-- The notebook's `fidelities(probs)`. -/
noncomputable def fidelities (probs : List ℝ) : List ℝ :=
  probs.map fun p => fidelity_pure (bitflip_circuit p) circuitDM

/-- The Bell density matrix `|Φ⁺⟩⟨Φ⁺|`. -/
noncomputable def bellDM : DMat := fun x y =>
  if (x = (0, 0) ∨ x = (1, 1)) ∧ (y = (0, 0) ∨ y = (1, 1)) then 1 / 2 else 0

/-- The flipped Bell density matrix `|Ψ⁺⟩⟨Ψ⁺|`. -/
noncomputable def psiDM : DMat := fun x y =>
  if (x = (0, 1) ∨ x = (1, 0)) ∧ (y = (0, 1) ∨ y = (1, 0)) then 1 / 2 else 0

/-- After the Hadamard on wire 0 the state is `|+0⟩⟨+0|`. -/
theorem h0_state : evolve hadamard0 rho00 =
    fun x y => if x.2 = 0 ∧ y.2 = 0 then (1 / 2 : ℂ) else 0 := by
  have hs2 : ((Real.sqrt 2 : ℂ)) ^ 2 = 2 := by
    norm_cast
    exact Real.sq_sqrt (by norm_num)
  funext x y
  obtain ⟨x1, x2⟩ := x
  obtain ⟨y1, y2⟩ := y
  fin_cases x1 <;> fin_cases x2 <;> fin_cases y1 <;> fin_cases y2 <;>
    simp [evolve, hadamard0, rho00, Fintype.sum_prod_type, Fin.sum_univ_two,
      Prod.ext_iff] <;>
    (try field_simp) <;>
    (try first
      | linear_combination 2 * hs2
      | linear_combination -hs2)

/-- The error-free circuit prepares the Bell state. -/
theorem bell_state : circuitDM = bellDM := by
  rw [circuitDM, h0_state]
  funext x y
  obtain ⟨x1, x2⟩ := x
  obtain ⟨y1, y2⟩ := y
  fin_cases x1 <;> fin_cases x2 <;> fin_cases y1 <;> fin_cases y2 <;>
    simp [evolve, cnot01, bellDM, Fintype.sum_prod_type, Fin.sum_univ_two,
      Prod.ext_iff]

/-- Conjugating the Bell state by `X` on wire 0 gives `|Ψ⁺⟩⟨Ψ⁺|`. -/
theorem x0_bell : evolve pauliX0 bellDM = psiDM := by
  funext x y
  obtain ⟨x1, x2⟩ := x
  obtain ⟨y1, y2⟩ := y
  fin_cases x1 <;> fin_cases x2 <;> fin_cases y1 <;> fin_cases y2 <;>
    simp [evolve, pauliX0, bellDM, psiDM, Fintype.sum_prod_type, Fin.sum_univ_two,
      Prod.ext_iff]

/-- Conjugating the Bell state by `X` on wire 1 gives `|Ψ⁺⟩⟨Ψ⁺|`. -/
theorem x1_bell : evolve pauliX1 bellDM = psiDM := by
  funext x y
  obtain ⟨x1, x2⟩ := x
  obtain ⟨y1, y2⟩ := y
  fin_cases x1 <;> fin_cases x2 <;> fin_cases y1 <;> fin_cases y2 <;>
    simp [evolve, pauliX1, bellDM, psiDM, Fintype.sum_prod_type, Fin.sum_univ_two,
      Prod.ext_iff]

/-- Conjugating `|Ψ⁺⟩⟨Ψ⁺|` by `X` on wire 1 gives back the Bell state. -/
theorem x1_psi : evolve pauliX1 psiDM = bellDM := by
  funext x y
  obtain ⟨x1, x2⟩ := x
  obtain ⟨y1, y2⟩ := y
  fin_cases x1 <;> fin_cases x2 <;> fin_cases y1 <;> fin_cases y2 <;>
    simp [evolve, pauliX1, bellDM, psiDM, Fintype.sum_prod_type, Fin.sum_univ_two,
      Prod.ext_iff]

/-- Conjugation is linear in the density matrix. -/
theorem evolve_lin (U : Q2 → Q2 → ℂ) (c d : ℂ) (ρ σ : DMat) :
    evolve U (fun a b => c * ρ a b + d * σ a b) =
      fun x y => c * evolve U ρ x y + d * evolve U σ x y := by
  funext x y
  simp only [evolve]
  have h : ∀ a b : Q2, U x a * (c * ρ a b + d * σ a b) * (starRingEnd ℂ) (U y b) =
      c * (U x a * ρ a b * (starRingEnd ℂ) (U y b)) +
        d * (U x a * σ a b * (starRingEnd ℂ) (U y b)) := by
    intro a b
    ring
  simp_rw [h, Finset.sum_add_distrib, Finset.mul_sum]

/-- The doubly bitflipped Bell state is the mixture
`((1-p)² + p²)·|Φ⁺⟩⟨Φ⁺| + 2p(1-p)·|Ψ⁺⟩⟨Ψ⁺|`. -/
theorem bitflip_circuit_eq (p : ℝ) : bitflip_circuit p =
    fun x y => (((1 - p) ^ 2 + p ^ 2 : ℝ) : ℂ) * bellDM x y +
      ((2 * p * (1 - p) : ℝ) : ℂ) * psiDM x y := by
  unfold bitflip_circuit bitFlip0 bitFlip1
  rw [bell_state, x0_bell]
  have hmix : evolve pauliX1 (fun x y => ((1 - p : ℝ) : ℂ) * bellDM x y +
      ((p : ℝ) : ℂ) * psiDM x y) =
      fun x y => ((1 - p : ℝ) : ℂ) * psiDM x y + ((p : ℝ) : ℂ) * bellDM x y := by
    rw [evolve_lin pauliX1 _ _ bellDM psiDM, x1_bell, x1_psi]
  rw [hmix]
  funext x y
  push_cast
  ring

/-- Closed form of the fidelity between the bitflipped and the error-free
states. -/
theorem fidelity_closed (p : ℝ) :
    fidelity_pure (bitflip_circuit p) circuitDM = 1 - 2 * p + 2 * p ^ 2 := by
  rw [fidelity_pure, bitflip_circuit_eq, bell_state]
  simp [bellDM, psiDM, Fintype.sum_prod_type, Fin.sum_univ_two, Prod.ext_iff]
  rw [show (((1 : ℂ) - ↑p) ^ 2) = (((1 - p) ^ 2 : ℝ) : ℂ) by push_cast; ring,
    show ((↑p : ℂ) ^ 2) = ((p ^ 2 : ℝ) : ℂ) by push_cast; ring]
  rw [Complex.ofReal_re, Complex.ofReal_re]
  ring

/-- Claim C3: for every bitflip probability `p ∈ [0, 1]` the fidelity
between `bitflip_circuit(p)` and the ideal Bell state equals
`1 - 2p + 2p²`, `fidelities` maps this over its input, and on the
notebook's test input the outputs are exactly the expected list. -/
theorem fidelities_closed_form (p : ℝ) (h0 : 0 ≤ p) (h1 : p ≤ 1) :
    fidelity_pure (bitflip_circuit p) circuitDM = 1 - 2 * p + 2 * p ^ 2 ∧
    (∀ probs : List ℝ, fidelities probs = probs.map fun q => 1 - 2 * q + 2 * q ^ 2) ∧
    fidelities [0.05, 0.1, 0.15, 0.2, 0.25] = [0.905, 0.82, 0.745, 0.68, 0.625] := by
  refine ⟨fidelity_closed p, ?_, ?_⟩
  · intro probs
    simp [fidelities, fidelity_closed]
  · simp only [fidelities, List.map, fidelity_closed]
    norm_num

/-- Witness for `fidelities_closed_form` at `p = 1/2`. -/
theorem fidelities_closed_form_witness :
    (0 : ℝ) ≤ 1 / 2 ∧ (1 / 2 : ℝ) ≤ 1 ∧
      fidelity_pure (bitflip_circuit (1 / 2)) circuitDM =
        1 - 2 * (1 / 2) + 2 * (1 / 2) ^ 2 :=
  ⟨by norm_num, by norm_num,
    (fidelities_closed_form (1 / 2) (by norm_num) (by norm_num)).1⟩

/-! ## Error-mitigated VQE notebook: zero-noise extrapolation

The VQE energies themselves are produced end-to-end by the external
quantum-chemistry and simulation stack (`qml.qchem.molecular_hamiltonian`,
the `DoubleExcitation` ansatz, `qml.GradientDescentOptimizer`); the
notebook's own algorithmic content is the extrapolation step.  The energy
of the ideal QNode and the energy of the mitigated QNode at each scale
factor are abstracted as given real values `idealE` and `mitE sf`. -/

/-- The notebook's `np.round_(..., decimals=6)` on one entry. -/
noncomputable def round6 (x : ℝ) : ℝ := (round (x * 1000000) : ℤ) / 1000000

/-- Model of `np.polyfit(xs, ys, 2)` for three sample points: for three
distinct abscissae the least-squares degree-2 fit is the unique
interpolating quadratic, whose coefficients `(a, b, c)` of
`a x² + b x + c` are given by the Lagrange form. -/
noncomputable def polyfit2 (x1 x2 x3 y1 y2 y3 : ℝ) : ℝ × ℝ × ℝ :=
  (y1 / ((x1 - x2) * (x1 - x3)) + y2 / ((x2 - x1) * (x2 - x3)) +
      y3 / ((x3 - x1) * (x3 - x2)),
   -(y1 * (x2 + x3) / ((x1 - x2) * (x1 - x3)) + y2 * (x1 + x3) / ((x2 - x1) * (x2 - x3)) +
      y3 * (x1 + x2) / ((x3 - x1) * (x3 - x2))),
   y1 * x2 * x3 / ((x1 - x2) * (x1 - x3)) + y2 * x1 * x3 / ((x2 - x1) * (x2 - x3)) +
      y3 * x1 * x2 / ((x3 - x1) * (x3 - x2)))

/-- The notebook's `extrapolation(d, scale_factors)`: round the ideal VQE
energy to 6 decimals, fit a degree-2 polynomial to the mitigated energies
against the scale factors, and return `[ideal_energy, zne_energy]` with
`zne_energy = coeffs[-1]`, the constant coefficient of the fit. -/
noncomputable def extrapolation (idealE : ℝ) (mitE : ℝ → ℝ)
    (scale_factors : List ℝ) : List ℝ :=
  match scale_factors with
  | [x1, x2, x3] =>
    [round6 idealE, (polyfit2 x1 x2 x3 (mitE x1) (mitE x2) (mitE x3)).2.2]
  | _ => []

/-- Sum of squared residuals of the quadratic `a x² + b x + c` on a list of
sample points, the objective np.polyfit minimizes. -/
noncomputable def sse (pts : List (ℝ × ℝ)) (a b c : ℝ) : ℝ :=
  ((pts.map fun q => (a * q.1 ^ 2 + b * q.1 + c - q.2) ^ 2).sum)

/-- The Lagrange coefficients interpolate the three sample points, and
`extrapolation` returns the rounded ideal energy first and the constant
coefficient second. -/
theorem extrapolation_spec (x1 x2 x3 idealE : ℝ) (mitE : ℝ → ℝ)
    (h12 : x1 ≠ x2) (h13 : x1 ≠ x3) (h23 : x2 ≠ x3) :
    extrapolation idealE mitE [x1, x2, x3] =
      [round6 idealE, (polyfit2 x1 x2 x3 (mitE x1) (mitE x2) (mitE x3)).2.2] ∧
    (∀ q ∈ [(x1, mitE x1), (x2, mitE x2), (x3, mitE x3)],
      (polyfit2 x1 x2 x3 (mitE x1) (mitE x2) (mitE x3)).1 * q.1 ^ 2 +
        (polyfit2 x1 x2 x3 (mitE x1) (mitE x2) (mitE x3)).2.1 * q.1 +
        (polyfit2 x1 x2 x3 (mitE x1) (mitE x2) (mitE x3)).2.2 = q.2) := by
  constructor
  · rfl
  · have hd1 : (x1 - x2) ≠ 0 := sub_ne_zero.mpr h12
    have hd2 : (x1 - x3) ≠ 0 := sub_ne_zero.mpr h13
    have hd3 : (x2 - x3) ≠ 0 := sub_ne_zero.mpr h23
    have hd4 : (x2 - x1) ≠ 0 := sub_ne_zero.mpr (Ne.symm h12)
    have hd5 : (x3 - x1) ≠ 0 := sub_ne_zero.mpr (Ne.symm h13)
    have hd6 : (x3 - x2) ≠ 0 := sub_ne_zero.mpr (Ne.symm h23)
    intro q hq
    simp only [List.mem_cons, List.not_mem_nil, or_false] at hq
    rcases hq with h | h | h <;>
      subst h <;>
      simp only [polyfit2] <;>
      field_simp <;>
      ring

/-- Two quadratics agreeing on three distinct points are identical. -/
theorem quad_unique (x1 x2 x3 a b c a2 b2 c2 : ℝ)
    (h12 : x1 ≠ x2) (h13 : x1 ≠ x3) (h23 : x2 ≠ x3)
    (e1 : a * x1 ^ 2 + b * x1 + c = a2 * x1 ^ 2 + b2 * x1 + c2)
    (e2 : a * x2 ^ 2 + b * x2 + c = a2 * x2 ^ 2 + b2 * x2 + c2)
    (e3 : a * x3 ^ 2 + b * x3 + c = a2 * x3 ^ 2 + b2 * x3 + c2) :
    a = a2 ∧ b = b2 ∧ c = c2 := by
  have hd1 : (x1 - x2) ≠ 0 := sub_ne_zero.mpr h12
  have hd2 : (x2 - x3) ≠ 0 := sub_ne_zero.mpr h23
  have hd3 : (x1 - x3) ≠ 0 := sub_ne_zero.mpr h13
  have f1 : (x1 - x2) * ((a - a2) * (x1 + x2) + (b - b2)) = 0 := by
    linear_combination e1 - e2
  have f2 : (x2 - x3) * ((a - a2) * (x2 + x3) + (b - b2)) = 0 := by
    linear_combination e2 - e3
  have g1 : (a - a2) * (x1 + x2) + (b - b2) = 0 :=
    (mul_eq_zero.mp f1).resolve_left hd1
  have g2 : (a - a2) * (x2 + x3) + (b - b2) = 0 :=
    (mul_eq_zero.mp f2).resolve_left hd2
  have f3 : (x1 - x3) * (a - a2) = 0 := by
    linear_combination g1 - g2
  have ga : a - a2 = 0 := (mul_eq_zero.mp f3).resolve_left hd3
  have ha : a = a2 := by linarith
  have hb : b = b2 := by
    have h := g1
    rw [ga] at h
    linarith [h]
  refine ⟨ha, hb, ?_⟩
  have h := e1
  rw [ha, hb] at h
  linarith [h]

/-- A sum of squared residuals is nonnegative. -/
theorem sse_nonneg (pts : List (ℝ × ℝ)) (a b c : ℝ) : 0 ≤ sse pts a b c := by
  unfold sse
  apply List.sum_nonneg
  intro x hx
  simp only [List.mem_map] at hx
  obtain ⟨q, hq, rfl⟩ := hx
  positivity

/-- Claim C6: for three distinct scale factors, `extrapolation` returns
`[ideal_energy, zne_energy]` in that order, with `ideal_energy` the ideal
VQE energy rounded to 6 decimals and `zne_energy` the constant coefficient
of the degree-2 least-squares fit — equivalently, the value at scale
factor 0 of the unique quadratic through the three (scale factor, energy)
points, and the minimizer of the squared-residual objective. -/
theorem extrapolation_zne (idealE : ℝ) (mitE : ℝ → ℝ) (x1 x2 x3 : ℝ)
    (h12 : x1 ≠ x2) (h13 : x1 ≠ x3) (h23 : x2 ≠ x3) :
    extrapolation idealE mitE [x1, x2, x3] =
      [round6 idealE, (polyfit2 x1 x2 x3 (mitE x1) (mitE x2) (mitE x3)).2.2] ∧
    (∀ q ∈ [(x1, mitE x1), (x2, mitE x2), (x3, mitE x3)],
      (polyfit2 x1 x2 x3 (mitE x1) (mitE x2) (mitE x3)).1 * q.1 ^ 2 +
        (polyfit2 x1 x2 x3 (mitE x1) (mitE x2) (mitE x3)).2.1 * q.1 +
        (polyfit2 x1 x2 x3 (mitE x1) (mitE x2) (mitE x3)).2.2 = q.2) ∧
    (∀ a b c : ℝ,
      (∀ q ∈ [(x1, mitE x1), (x2, mitE x2), (x3, mitE x3)],
        a * q.1 ^ 2 + b * q.1 + c = q.2) →
      a * 0 ^ 2 + b * 0 + c =
        (polyfit2 x1 x2 x3 (mitE x1) (mitE x2) (mitE x3)).2.2) ∧
    (∀ a b c : ℝ,
      sse [(x1, mitE x1), (x2, mitE x2), (x3, mitE x3)]
          (polyfit2 x1 x2 x3 (mitE x1) (mitE x2) (mitE x3)).1
          (polyfit2 x1 x2 x3 (mitE x1) (mitE x2) (mitE x3)).2.1
          (polyfit2 x1 x2 x3 (mitE x1) (mitE x2) (mitE x3)).2.2 ≤
        sse [(x1, mitE x1), (x2, mitE x2), (x3, mitE x3)] a b c) := by
  obtain ⟨hout, hinterp⟩ := extrapolation_spec x1 x2 x3 idealE mitE h12 h13 h23
  have h1 := hinterp (x1, mitE x1) (by simp)
  have h2 := hinterp (x2, mitE x2) (by simp)
  have h3 := hinterp (x3, mitE x3) (by simp)
  refine ⟨hout, hinterp, ?_, ?_⟩
  · intro a b c hfit
    have g1 := hfit (x1, mitE x1) (by simp)
    have g2 := hfit (x2, mitE x2) (by simp)
    have g3 := hfit (x3, mitE x3) (by simp)
    obtain ⟨-, -, hc⟩ := quad_unique x1 x2 x3 a b c
      (polyfit2 x1 x2 x3 (mitE x1) (mitE x2) (mitE x3)).1
      (polyfit2 x1 x2 x3 (mitE x1) (mitE x2) (mitE x3)).2.1
      (polyfit2 x1 x2 x3 (mitE x1) (mitE x2) (mitE x3)).2.2
      h12 h13 h23 (by rw [g1, ← h1]) (by rw [g2, ← h2]) (by rw [g3, ← h3])
    simpa using hc
  · intro a b c
    have hzero : sse [(x1, mitE x1), (x2, mitE x2), (x3, mitE x3)]
        (polyfit2 x1 x2 x3 (mitE x1) (mitE x2) (mitE x3)).1
        (polyfit2 x1 x2 x3 (mitE x1) (mitE x2) (mitE x3)).2.1
        (polyfit2 x1 x2 x3 (mitE x1) (mitE x2) (mitE x3)).2.2 = 0 := by
      unfold sse
      simp only [List.map_cons, List.map_nil, List.sum_cons, List.sum_nil]
      rw [h1, h2, h3]
      ring
    rw [hzero]
    exact sse_nonneg _ a b c

/-- Witness for `extrapolation_zne` at scale factors 1, 2, 3 with the
identity as energy function (whose interpolant is `y = x`, with constant
coefficient 0). -/
theorem extrapolation_zne_witness :
    ((1 : ℝ) ≠ 2) ∧ ((1 : ℝ) ≠ 3) ∧ ((2 : ℝ) ≠ 3) ∧
    extrapolation 0 (fun x => x) [1, 2, 3] =
      [round6 0, (polyfit2 1 2 3 ((fun x : ℝ => x) 1) ((fun x : ℝ => x) 2)
        ((fun x : ℝ => x) 3)).2.2] ∧
    (polyfit2 1 2 3 ((fun x : ℝ => x) 1) ((fun x : ℝ => x) 2)
        ((fun x : ℝ => x) 3)).2.2 = 0 :=
  ⟨by norm_num, by norm_num, by norm_num,
    (extrapolation_zne 0 (fun x => x) 1 2 3 (by norm_num) (by norm_num) (by norm_num)).1,
    by norm_num [polyfit2]⟩

/-! ## Determinism of the `run` functions -/

/-- The `run` of the bitflip notebook with the caller-visible state of its
parsed input list threaded explicitly: the source performs no mutation, so
the list is returned unchanged alongside the output. -/
noncomputable def run_bitflip (probs : List ℝ) : List ℝ × List ℝ :=
  (probs, fidelities probs)

/-- The `run` of the VQE notebook (`scale_factors = [1, 2, 3]` fixed), with
its input `d` threaded explicitly and the external energies abstracted as
functions of `d`. -/
noncomputable def run_vqe (idealE : ℝ → ℝ) (mitE : ℝ → ℝ → ℝ) (d : ℝ) :
    ℝ × List ℝ :=
  (d, extrapolation (idealE d) (mitE d) [1, 2, 3])

/-- Claim C9: each `run` is a pure function of its test-case input.  The
only mutation any of them performs — the in-place shifts of `params` in
`my_parameter_shift_grad` — is rolled back before return, so a second
invocation on the post-state of the first produces the identical output;
the other two `run`s mutate nothing. -/
theorem run_functions_deterministic :
    (∀ params : List ℝ, (run_param_shift params).1 = params ∧
      (run_param_shift ((run_param_shift params).1)).2 = (run_param_shift params).2) ∧
    (∀ probs : List ℝ, (run_bitflip probs).1 = probs ∧
      (run_bitflip ((run_bitflip probs).1)).2 = (run_bitflip probs).2) ∧
    (∀ (idealE : ℝ → ℝ) (mitE : ℝ → ℝ → ℝ) (d : ℝ),
      (run_vqe idealE mitE d).1 = d ∧
      (run_vqe idealE mitE ((run_vqe idealE mitE d).1)).2 =
        (run_vqe idealE mitE d).2) := by
  refine ⟨?_, fun probs => ⟨rfl, rfl⟩, fun idealE mitE d => ⟨rfl, rfl⟩⟩
  intro params
  have h1 : (run_param_shift params).1 = params := psGradAux_fst params
  exact ⟨h1, by rw [h1]⟩

/-! ## Exact arithmetic in the cyclotomic ring Z[zeta], zeta = e^{i pi/4}

The matrices of the two universality circuits have entries in the ring of
integers of the 8th cyclotomic field (after scaling every gate by sqrt 2).
Representing them as integer quadruples `a + b zeta + c zeta^2 + d zeta^3`
makes the circuit products exactly computable by `decide`. -/

structure Z8 where
  a : ℤ
  b : ℤ
  c : ℤ
  d : ℤ
deriving DecidableEq

def zadd (x y : Z8) : Z8 := ⟨x.a + y.a, x.b + y.b, x.c + y.c, x.d + y.d⟩

def zmul (x y : Z8) : Z8 :=
  ⟨x.a * y.a - x.b * y.d - x.c * y.c - x.d * y.b,
   x.a * y.b + x.b * y.a - x.c * y.d - x.d * y.c,
   x.a * y.c + x.b * y.b + x.c * y.a - x.d * y.d,
   x.a * y.d + x.b * y.c + x.c * y.b + x.d * y.a⟩

noncomputable def zeta : ℂ := Complex.exp ((Real.pi / 4 : ℝ) * Complex.I)

noncomputable def toC (x : Z8) : ℂ :=
  (x.a : ℂ) + (x.b : ℂ) * zeta + (x.c : ℂ) * zeta ^ 2 + (x.d : ℂ) * zeta ^ 3

theorem zeta_val :
    zeta = ((Real.sqrt 2 / 2 : ℝ) : ℂ) + ((Real.sqrt 2 / 2 : ℝ) : ℂ) * Complex.I := by
  rw [zeta, Complex.exp_mul_I]
  rw [show ((Real.pi / 4 : ℝ) : ℂ) = ((Real.pi : ℂ)) / 4 by push_cast; ring]
  rw [show ((Real.pi : ℂ)) / 4 = ((Real.pi / 4 : ℝ) : ℂ) by push_cast; ring,
    ← Complex.ofReal_cos, ← Complex.ofReal_sin, Real.cos_pi_div_four, Real.sin_pi_div_four]

theorem sqrt2_sq : ((Real.sqrt 2 : ℝ) : ℂ) * ((Real.sqrt 2 : ℝ) : ℂ) = 2 := by
  norm_cast
  exact Real.mul_self_sqrt (by norm_num)

theorem zeta_sq : zeta ^ 2 = Complex.I := by
  rw [zeta_val]
  push_cast
  linear_combination (1 / 4 + Complex.I / 2 + Complex.I ^ 2 / 4) * sqrt2_sq +
    (1 / 2) * Complex.I_sq

theorem zeta_cube :
    zeta ^ 3 = -((Real.sqrt 2 / 2 : ℝ) : ℂ) + ((Real.sqrt 2 / 2 : ℝ) : ℂ) * Complex.I := by
  rw [show zeta ^ 3 = zeta ^ 2 * zeta by ring, zeta_sq, zeta_val]
  push_cast
  linear_combination ((Real.sqrt 2 : ℂ) / 2) * Complex.I_sq

theorem zeta_pow_four : zeta ^ 4 = -1 := by
  rw [show zeta ^ 4 = (zeta ^ 2) ^ 2 by ring, zeta_sq, Complex.I_sq]

theorem zeta_sub_cube : zeta - zeta ^ 3 = ((Real.sqrt 2 : ℝ) : ℂ) := by
  rw [zeta_cube, zeta_val]
  push_cast
  ring

theorem one_add_zeta_sq : 1 + zeta ^ 2 = ((Real.sqrt 2 : ℝ) : ℂ) * zeta := by
  rw [zeta_sq, zeta_val]
  push_cast
  linear_combination ((-1 - Complex.I) / 2) * sqrt2_sq

theorem toC_add (x y : Z8) : toC (zadd x y) = toC x + toC y := by
  simp only [toC, zadd]
  push_cast
  ring

theorem toC_mul (x y : Z8) : toC (zmul x y) = toC x * toC y := by
  simp only [toC, zmul]
  push_cast
  linear_combination (-(((x.b : ℂ) * (y.d : ℂ) + (x.c : ℂ) * (y.c : ℂ) +
      (x.d : ℂ) * (y.b : ℂ)) +
    ((x.c : ℂ) * (y.d : ℂ) + (x.d : ℂ) * (y.c : ℂ)) * zeta +
    ((x.d : ℂ) * (y.d : ℂ)) * zeta ^ 2)) * zeta_pow_four

theorem toC_zero : toC ⟨0, 0, 0, 0⟩ = 0 := by
  simp [toC]

theorem toC_one : toC ⟨1, 0, 0, 0⟩ = 1 := by
  simp [toC]

/-! ## The U3/CNOT universality notebook -/

/-- Three-qubit basis index (wire 0, wire 1, wire 2). -/
abbrev Q3 := Fin 2 × Fin 2 × Fin 2

/-- Complex 8×8 matrices indexed by basis states. -/
abbrev CMat3 := Q3 → Q3 → ℂ

/-- Integer-cyclotomic 8×8 matrices. -/
abbrev ZMat3 := Q3 → Q3 → Z8

/-- The index of a basis state in wire order `[0, 1, 2]` (wire 0 most
significant), as used by `qml.matrix`. -/
def enc3 (x : Q3) : Fin 8 := ⟨4 * x.1.val + 2 * x.2.1.val + x.2.2.val, by omega⟩

/-- The matrix of `qml.U3(theta, phi, delta)`. -/
noncomputable def U3c (θ φ δ : ℝ) : Fin 2 → Fin 2 → ℂ := fun i j =>
  if i = 0 then
    (if j = 0 then ((Real.cos (θ / 2) : ℝ) : ℂ)
     else -Complex.exp ((δ : ℝ) * Complex.I) * ((Real.sin (θ / 2) : ℝ) : ℂ))
  else
    (if j = 0 then Complex.exp ((φ : ℝ) * Complex.I) * ((Real.sin (θ / 2) : ℝ) : ℂ)
     else Complex.exp (((φ + δ : ℝ)) * Complex.I) * ((Real.cos (θ / 2) : ℝ) : ℂ))

/-- A single-qubit gate acting on wire 0 of three. -/
noncomputable def onW0 (g : Fin 2 → Fin 2 → ℂ) : CMat3 := fun x y =>
  if x.2 = y.2 then g x.1 y.1 else 0

/-- A single-qubit gate acting on wire 1 of three. -/
noncomputable def onW1 (g : Fin 2 → Fin 2 → ℂ) : CMat3 := fun x y =>
  if x.1 = y.1 ∧ x.2.2 = y.2.2 then g x.2.1 y.2.1 else 0

/-- A single-qubit gate acting on wire 2 of three. -/
noncomputable def onW2 (g : Fin 2 → Fin 2 → ℂ) : CMat3 := fun x y =>
  if x.1 = y.1 ∧ x.2.1 = y.2.1 then g x.2.2 y.2.2 else 0

/-- `qml.CNOT(wires=[0, 1])` on three wires. -/
def cnot3c : CMat3 := fun x y =>
  if x.1 = y.1 ∧ x.2.1 = y.1 + y.2.1 ∧ x.2.2 = y.2.2 then 1 else 0

/-- Matrix product of two 8×8 complex matrices (the sum over the eight
basis states written out). -/
noncomputable def cmul3 (A B : CMat3) : CMat3 := fun i j =>
  A i (0, 0, 0) * B (0, 0, 0) j + A i (0, 0, 1) * B (0, 0, 1) j +
  A i (0, 1, 0) * B (0, 1, 0) j + A i (0, 1, 1) * B (0, 1, 1) j +
  A i (1, 0, 0) * B (1, 0, 0) j + A i (1, 0, 1) * B (1, 0, 1) j +
  A i (1, 1, 0) * B (1, 1, 0) j + A i (1, 1, 1) * B (1, 1, 1) j

/-- The matrix of the U3/CNOT notebook's `circuit()` (first-applied gate
rightmost): three placeholder `U3(0,0,0)`, a `U3(0,π/2,π/2)` (a Pauli Z)
on wire 1, the `H = U3(π/2,0,π)`-conjugated CNOT realizing a CZ, and a
final `U3(π/2,0,π)` Hadamard on wire 2. -/
noncomputable def u3CircuitC : CMat3 :=
  cmul3 (onW2 (U3c (Real.pi / 2) 0 Real.pi))
    (cmul3 (onW1 (U3c (Real.pi / 2) 0 Real.pi))
      (cmul3 cnot3c
        (cmul3 (onW1 (U3c (Real.pi / 2) 0 Real.pi))
          (cmul3 (onW1 (U3c 0 (Real.pi / 2) (Real.pi / 2)))
            (cmul3 (onW2 (U3c 0 0 0))
              (cmul3 (onW1 (U3c 0 0 0)) (onW0 (U3c 0 0 0))))))))

/-- The gate names of the tape of `circuit()`, in application order. -/
def u3_gate_names : List String :=
  ["U3", "U3", "U3", "U3", "U3", "CNOT", "U3", "U3"]

/-- A `√2`-scaled single-qubit identity over the cyclotomic ring. -/
def zI2g : Fin 2 → Fin 2 → Z8 := fun i j => if i = j then ⟨0, 1, 0, -1⟩ else ⟨0, 0, 0, 0⟩

/-- A `√2`-scaled Pauli Z over the cyclotomic ring. -/
def zZ2g : Fin 2 → Fin 2 → Z8 := fun i j =>
  if i = 0 ∧ j = 0 then ⟨0, 1, 0, -1⟩
  else if i = 1 ∧ j = 1 then ⟨0, -1, 0, 1⟩ else ⟨0, 0, 0, 0⟩

/-- A `√2`-scaled Hadamard over the cyclotomic ring. -/
def zH2g : Fin 2 → Fin 2 → Z8 := fun i j =>
  if i = 1 ∧ j = 1 then ⟨-1, 0, 0, 0⟩ else ⟨1, 0, 0, 0⟩

/-- Embedding of a cyclotomic single-qubit gate on wire 0. -/
def zOn0 (g : Fin 2 → Fin 2 → Z8) : ZMat3 := fun x y =>
  if x.2 = y.2 then g x.1 y.1 else ⟨0, 0, 0, 0⟩

/-- Embedding on wire 1. -/
def zOn1 (g : Fin 2 → Fin 2 → Z8) : ZMat3 := fun x y =>
  if x.1 = y.1 ∧ x.2.2 = y.2.2 then g x.2.1 y.2.1 else ⟨0, 0, 0, 0⟩

/-- Embedding on wire 2. -/
def zOn2 (g : Fin 2 → Fin 2 → Z8) : ZMat3 := fun x y =>
  if x.1 = y.1 ∧ x.2.1 = y.2.1 then g x.2.2 y.2.2 else ⟨0, 0, 0, 0⟩

/-- The `√2`-scaled CNOT over the cyclotomic ring. -/
def zCnot3 : ZMat3 := fun x y =>
  if x.1 = y.1 ∧ x.2.1 = y.1 + y.2.1 ∧ x.2.2 = y.2.2 then ⟨0, 1, 0, -1⟩
  else ⟨0, 0, 0, 0⟩

/-- Matrix product over the cyclotomic ring. -/
def zmul3 (A B : ZMat3) : ZMat3 := fun i j =>
  zadd (zmul (A i (0, 0, 0)) (B (0, 0, 0) j)) (zadd (zmul (A i (0, 0, 1)) (B (0, 0, 1) j))
    (zadd (zmul (A i (0, 1, 0)) (B (0, 1, 0) j)) (zadd (zmul (A i (0, 1, 1)) (B (0, 1, 1) j))
      (zadd (zmul (A i (1, 0, 0)) (B (1, 0, 0) j)) (zadd (zmul (A i (1, 0, 1)) (B (1, 0, 1) j))
        (zadd (zmul (A i (1, 1, 0)) (B (1, 1, 0) j)) (zmul (A i (1, 1, 1)) (B (1, 1, 1) j))))))))

/-- The `√2`-scaled cyclotomic mirror of `u3CircuitC`. -/
def zC5full : ZMat3 :=
  zmul3 (zOn2 zH2g) (zmul3 (zOn1 zH2g) (zmul3 zCnot3 (zmul3 (zOn1 zH2g)
    (zmul3 (zOn1 zZ2g) (zmul3 (zOn2 zI2g) (zmul3 (zOn1 zI2g) (zOn0 zI2g)))))))

def zC5T1 : Fin 8 → Fin 8 → Z8 :=
  ![![⟨0, 2, 0, -2⟩, ⟨0, 0, 0, 0⟩, ⟨0, 0, 0, 0⟩, ⟨0, 0, 0, 0⟩, ⟨0, 0, 0, 0⟩, ⟨0, 0, 0, 0⟩, ⟨0, 0, 0, 0⟩, ⟨0, 0, 0, 0⟩],
    ![⟨0, 0, 0, 0⟩, ⟨0, 2, 0, -2⟩, ⟨0, 0, 0, 0⟩, ⟨0, 0, 0, 0⟩, ⟨0, 0, 0, 0⟩, ⟨0, 0, 0, 0⟩, ⟨0, 0, 0, 0⟩, ⟨0, 0, 0, 0⟩],
    ![⟨0, 0, 0, 0⟩, ⟨0, 0, 0, 0⟩, ⟨0, 2, 0, -2⟩, ⟨0, 0, 0, 0⟩, ⟨0, 0, 0, 0⟩, ⟨0, 0, 0, 0⟩, ⟨0, 0, 0, 0⟩, ⟨0, 0, 0, 0⟩],
    ![⟨0, 0, 0, 0⟩, ⟨0, 0, 0, 0⟩, ⟨0, 0, 0, 0⟩, ⟨0, 2, 0, -2⟩, ⟨0, 0, 0, 0⟩, ⟨0, 0, 0, 0⟩, ⟨0, 0, 0, 0⟩, ⟨0, 0, 0, 0⟩],
    ![⟨0, 0, 0, 0⟩, ⟨0, 0, 0, 0⟩, ⟨0, 0, 0, 0⟩, ⟨0, 0, 0, 0⟩, ⟨0, 2, 0, -2⟩, ⟨0, 0, 0, 0⟩, ⟨0, 0, 0, 0⟩, ⟨0, 0, 0, 0⟩],
    ![⟨0, 0, 0, 0⟩, ⟨0, 0, 0, 0⟩, ⟨0, 0, 0, 0⟩, ⟨0, 0, 0, 0⟩, ⟨0, 0, 0, 0⟩, ⟨0, 2, 0, -2⟩, ⟨0, 0, 0, 0⟩, ⟨0, 0, 0, 0⟩],
    ![⟨0, 0, 0, 0⟩, ⟨0, 0, 0, 0⟩, ⟨0, 0, 0, 0⟩, ⟨0, 0, 0, 0⟩, ⟨0, 0, 0, 0⟩, ⟨0, 0, 0, 0⟩, ⟨0, 2, 0, -2⟩, ⟨0, 0, 0, 0⟩],
    ![⟨0, 0, 0, 0⟩, ⟨0, 0, 0, 0⟩, ⟨0, 0, 0, 0⟩, ⟨0, 0, 0, 0⟩, ⟨0, 0, 0, 0⟩, ⟨0, 0, 0, 0⟩, ⟨0, 0, 0, 0⟩, ⟨0, 2, 0, -2⟩]]

def zC5T2 : Fin 8 → Fin 8 → Z8 :=
  ![![⟨0, 4, 0, -4⟩, ⟨0, 0, 0, 0⟩, ⟨0, -4, 0, 4⟩, ⟨0, 0, 0, 0⟩, ⟨0, 0, 0, 0⟩, ⟨0, 0, 0, 0⟩, ⟨0, 0, 0, 0⟩, ⟨0, 0, 0, 0⟩],
    ![⟨0, 0, 0, 0⟩, ⟨0, 4, 0, -4⟩, ⟨0, 0, 0, 0⟩, ⟨0, -4, 0, 4⟩, ⟨0, 0, 0, 0⟩, ⟨0, 0, 0, 0⟩, ⟨0, 0, 0, 0⟩, ⟨0, 0, 0, 0⟩],
    ![⟨0, 4, 0, -4⟩, ⟨0, 0, 0, 0⟩, ⟨0, 4, 0, -4⟩, ⟨0, 0, 0, 0⟩, ⟨0, 0, 0, 0⟩, ⟨0, 0, 0, 0⟩, ⟨0, 0, 0, 0⟩, ⟨0, 0, 0, 0⟩],
    ![⟨0, 0, 0, 0⟩, ⟨0, 4, 0, -4⟩, ⟨0, 0, 0, 0⟩, ⟨0, 4, 0, -4⟩, ⟨0, 0, 0, 0⟩, ⟨0, 0, 0, 0⟩, ⟨0, 0, 0, 0⟩, ⟨0, 0, 0, 0⟩],
    ![⟨0, 0, 0, 0⟩, ⟨0, 0, 0, 0⟩, ⟨0, 0, 0, 0⟩, ⟨0, 0, 0, 0⟩, ⟨0, 4, 0, -4⟩, ⟨0, 0, 0, 0⟩, ⟨0, 4, 0, -4⟩, ⟨0, 0, 0, 0⟩],
    ![⟨0, 0, 0, 0⟩, ⟨0, 0, 0, 0⟩, ⟨0, 0, 0, 0⟩, ⟨0, 0, 0, 0⟩, ⟨0, 0, 0, 0⟩, ⟨0, 4, 0, -4⟩, ⟨0, 0, 0, 0⟩, ⟨0, 4, 0, -4⟩],
    ![⟨0, 0, 0, 0⟩, ⟨0, 0, 0, 0⟩, ⟨0, 0, 0, 0⟩, ⟨0, 0, 0, 0⟩, ⟨0, 4, 0, -4⟩, ⟨0, 0, 0, 0⟩, ⟨0, -4, 0, 4⟩, ⟨0, 0, 0, 0⟩],
    ![⟨0, 0, 0, 0⟩, ⟨0, 0, 0, 0⟩, ⟨0, 0, 0, 0⟩, ⟨0, 0, 0, 0⟩, ⟨0, 0, 0, 0⟩, ⟨0, 4, 0, -4⟩, ⟨0, 0, 0, 0⟩, ⟨0, -4, 0, 4⟩]]

def zC5T3 : Fin 8 → Fin 8 → Z8 :=
  ![![⟨0, 8, 0, -8⟩, ⟨0, 8, 0, -8⟩, ⟨0, 0, 0, 0⟩, ⟨0, 0, 0, 0⟩, ⟨0, 0, 0, 0⟩, ⟨0, 0, 0, 0⟩, ⟨0, 0, 0, 0⟩, ⟨0, 0, 0, 0⟩],
    ![⟨0, 8, 0, -8⟩, ⟨0, -8, 0, 8⟩, ⟨0, 0, 0, 0⟩, ⟨0, 0, 0, 0⟩, ⟨0, 0, 0, 0⟩, ⟨0, 0, 0, 0⟩, ⟨0, 0, 0, 0⟩, ⟨0, 0, 0, 0⟩],
    ![⟨0, 0, 0, 0⟩, ⟨0, 0, 0, 0⟩, ⟨0, -8, 0, 8⟩, ⟨0, -8, 0, 8⟩, ⟨0, 0, 0, 0⟩, ⟨0, 0, 0, 0⟩, ⟨0, 0, 0, 0⟩, ⟨0, 0, 0, 0⟩],
    ![⟨0, 0, 0, 0⟩, ⟨0, 0, 0, 0⟩, ⟨0, -8, 0, 8⟩, ⟨0, 8, 0, -8⟩, ⟨0, 0, 0, 0⟩, ⟨0, 0, 0, 0⟩, ⟨0, 0, 0, 0⟩, ⟨0, 0, 0, 0⟩],
    ![⟨0, 0, 0, 0⟩, ⟨0, 0, 0, 0⟩, ⟨0, 0, 0, 0⟩, ⟨0, 0, 0, 0⟩, ⟨0, 8, 0, -8⟩, ⟨0, 8, 0, -8⟩, ⟨0, 0, 0, 0⟩, ⟨0, 0, 0, 0⟩],
    ![⟨0, 0, 0, 0⟩, ⟨0, 0, 0, 0⟩, ⟨0, 0, 0, 0⟩, ⟨0, 0, 0, 0⟩, ⟨0, 8, 0, -8⟩, ⟨0, -8, 0, 8⟩, ⟨0, 0, 0, 0⟩, ⟨0, 0, 0, 0⟩],
    ![⟨0, 0, 0, 0⟩, ⟨0, 0, 0, 0⟩, ⟨0, 0, 0, 0⟩, ⟨0, 0, 0, 0⟩, ⟨0, 0, 0, 0⟩, ⟨0, 0, 0, 0⟩, ⟨0, 8, 0, -8⟩, ⟨0, 8, 0, -8⟩],
    ![⟨0, 0, 0, 0⟩, ⟨0, 0, 0, 0⟩, ⟨0, 0, 0, 0⟩, ⟨0, 0, 0, 0⟩, ⟨0, 0, 0, 0⟩, ⟨0, 0, 0, 0⟩, ⟨0, 8, 0, -8⟩, ⟨0, -8, 0, 8⟩]]

theorem zC5_s1 : zmul3 (zOn2 zI2g) (zmul3 (zOn1 zI2g) (zOn0 zI2g)) =
    fun x y => zC5T1 (enc3 x) (enc3 y) := by decide

theorem zC5_s2 : zmul3 zCnot3 (zmul3 (zOn1 zH2g) (zmul3 (zOn1 zZ2g)
    (fun x y => zC5T1 (enc3 x) (enc3 y)))) =
    fun x y => zC5T2 (enc3 x) (enc3 y) := by decide

theorem zC5_s3 : zmul3 (zOn2 zH2g) (zmul3 (zOn1 zH2g)
    (fun x y => zC5T2 (enc3 x) (enc3 y))) =
    fun x y => zC5T3 (enc3 x) (enc3 y) := by decide

theorem zC5_eq : zC5full = fun x y => zC5T3 (enc3 x) (enc3 y) := by
  unfold zC5full
  rw [zC5_s1, zC5_s2, zC5_s3]


/-- Correspondence between a cyclotomic matrix and a complex matrix at a
given `√2` scaling power. -/
def Rel3 (k : ℕ) (zA : ZMat3) (cA : CMat3) : Prop :=
  ∀ x y, toC (zA x y) = ((Real.sqrt 2 : ℝ) : ℂ) ^ k * cA x y

/-- The correspondence is multiplicative, adding the scaling powers. -/
theorem rel3_mul {m n : ℕ} {zA zB : ZMat3} {cA cB : CMat3}
    (hA : Rel3 m zA cA) (hB : Rel3 n zB cB) :
    Rel3 (m + n) (zmul3 zA zB) (cmul3 cA cB) := by
  intro x y
  simp only [zmul3, cmul3, toC_add, toC_mul]
  rw [hA, hA, hA, hA, hA, hA, hA, hA, hB, hB, hB, hB, hB, hB, hB, hB]
  ring

theorem U3c_id : U3c 0 0 0 = fun i j => if i = j then 1 else 0 := by
  funext i j
  fin_cases i <;> fin_cases j <;>
    simp [U3c]

theorem U3c_Z : U3c 0 (Real.pi / 2) (Real.pi / 2) =
    fun i j => if i = j then (if i = 0 then 1 else -1) else 0 := by
  have hsum : ((Real.pi / 2 + Real.pi / 2 : ℝ) : ℂ) * Complex.I =
      (Real.pi : ℂ) * Complex.I := by
    push_cast
    ring
  funext i j
  fin_cases i <;> fin_cases j <;>
    simp [U3c, hsum, Complex.exp_pi_mul_I]

theorem U3c_H : U3c (Real.pi / 2) 0 Real.pi =
    fun i j => if i = 1 ∧ j = 1 then -(((Real.sqrt 2 : ℝ) : ℂ) / 2)
      else ((Real.sqrt 2 : ℝ) : ℂ) / 2 := by
  have hhalf : Real.pi / 2 / 2 = Real.pi / 4 := by ring
  have hsum : ((0 + Real.pi : ℝ) : ℂ) * Complex.I = (Real.pi : ℂ) * Complex.I := by
    push_cast
    ring
  funext i j
  fin_cases i <;> fin_cases j <;>
    simp [U3c, hhalf, hsum, Complex.exp_pi_mul_I, Real.cos_pi_div_four,
      Real.sin_pi_div_four] <;>
    (try push_cast) <;>
    (try ring)

theorem corr2_id : ∀ i j : Fin 2, toC (zI2g i j) =
    ((Real.sqrt 2 : ℝ) : ℂ) * U3c 0 0 0 i j := by
  rw [U3c_id]
  intro i j
  fin_cases i <;> fin_cases j <;>
    simp [zI2g, toC, zeta_sub_cube] <;>
    linear_combination zeta_sub_cube

theorem corr2_Z : ∀ i j : Fin 2, toC (zZ2g i j) =
    ((Real.sqrt 2 : ℝ) : ℂ) * U3c 0 (Real.pi / 2) (Real.pi / 2) i j := by
  rw [U3c_Z]
  intro i j
  fin_cases i <;> fin_cases j <;>
    simp [zZ2g, toC] <;>
    (try first
      | linear_combination zeta_sub_cube
      | linear_combination -zeta_sub_cube)

theorem corr2_H : ∀ i j : Fin 2, toC (zH2g i j) =
    ((Real.sqrt 2 : ℝ) : ℂ) * U3c (Real.pi / 2) 0 Real.pi i j := by
  rw [U3c_H]
  intro i j
  fin_cases i <;> fin_cases j <;>
    simp [zH2g, toC] <;>
    (try first
      | linear_combination (1 / 2) * sqrt2_sq
      | linear_combination (-1 / 2) * sqrt2_sq)

theorem rel3_onW0 {g : Fin 2 → Fin 2 → ℂ} {zg : Fin 2 → Fin 2 → Z8}
    (h : ∀ i j, toC (zg i j) = ((Real.sqrt 2 : ℝ) : ℂ) * g i j) :
    Rel3 1 (zOn0 zg) (onW0 g) := by
  intro x y
  by_cases hc : x.2 = y.2 <;>
    simp [zOn0, onW0, hc, h, toC_zero]

theorem rel3_onW1 {g : Fin 2 → Fin 2 → ℂ} {zg : Fin 2 → Fin 2 → Z8}
    (h : ∀ i j, toC (zg i j) = ((Real.sqrt 2 : ℝ) : ℂ) * g i j) :
    Rel3 1 (zOn1 zg) (onW1 g) := by
  intro x y
  by_cases hc : x.1 = y.1 ∧ x.2.2 = y.2.2 <;>
    simp [zOn1, onW1, hc, h, toC_zero]

theorem rel3_onW2 {g : Fin 2 → Fin 2 → ℂ} {zg : Fin 2 → Fin 2 → Z8}
    (h : ∀ i j, toC (zg i j) = ((Real.sqrt 2 : ℝ) : ℂ) * g i j) :
    Rel3 1 (zOn2 zg) (onW2 g) := by
  intro x y
  by_cases hc : x.1 = y.1 ∧ x.2.1 = y.2.1 <;>
    simp [zOn2, onW2, hc, h, toC_zero]

theorem rel3_cnot : Rel3 1 zCnot3 cnot3c := by
  intro x y
  by_cases hc : x.1 = y.1 ∧ x.2.1 = y.1 + y.2.1 ∧ x.2.2 = y.2.2 <;>
    simp [zCnot3, cnot3c, hc, toC, toC_zero] <;>
    (try linear_combination zeta_sub_cube)

/-- The cyclotomic mirror tracks the complex circuit at scale `(√2)^8`. -/
theorem u3_rel : Rel3 8 zC5full u3CircuitC :=
  rel3_mul (rel3_onW2 corr2_H) (rel3_mul (rel3_onW1 corr2_H)
    (rel3_mul rel3_cnot (rel3_mul (rel3_onW1 corr2_H)
      (rel3_mul (rel3_onW1 corr2_Z) (rel3_mul (rel3_onW2 corr2_id)
        (rel3_mul (rel3_onW1 corr2_id) (rel3_onW0 corr2_id)))))))


/-- The integer part of the matrix required by the U3/CNOT notebook (the
full target is `1/√2` times this matrix). -/
def u3m : Fin 8 → Fin 8 → ℤ :=
  ![![1, 1, 0, 0, 0, 0, 0, 0],
    ![1, -1, 0, 0, 0, 0, 0, 0],
    ![0, 0, -1, -1, 0, 0, 0, 0],
    ![0, 0, -1, 1, 0, 0, 0, 0],
    ![0, 0, 0, 0, 1, 1, 0, 0],
    ![0, 0, 0, 0, 1, -1, 0, 0],
    ![0, 0, 0, 0, 0, 0, 1, 1],
    ![0, 0, 0, 0, 0, 0, 1, -1]]

theorem zC5T3_entries : ∀ i j : Fin 8, zC5T3 i j =
    ⟨0, 8 * u3m i j, 0, -(8 * u3m i j)⟩ := by decide

theorem toC_sqrt2_scaled (m : ℤ) : toC ⟨0, 8 * m, 0, -(8 * m)⟩ =
    8 * (m : ℂ) * ((Real.sqrt 2 : ℝ) : ℂ) := by
  simp only [toC]
  push_cast
  linear_combination (8 * (m : ℂ)) * zeta_sub_cube

theorem sqrt2_pow_eight : ((Real.sqrt 2 : ℝ) : ℂ) ^ 8 = 16 := by
  rw [show ((Real.sqrt 2 : ℝ) : ℂ) ^ 8 =
    (((Real.sqrt 2 : ℝ) : ℂ) * ((Real.sqrt 2 : ℝ) : ℂ)) ^ 4 by ring, sqrt2_sq]
  norm_num

theorem sqrt2_ne_zero_c : ((Real.sqrt 2 : ℝ) : ℂ) ≠ 0 := by
  simp only [ne_eq, Complex.ofReal_eq_zero]
  positivity

/-- Exact value of the entries of the U3/CNOT circuit matrix. -/
theorem u3CircuitC_entries (x y : Q3) :
    u3CircuitC x y = ((u3m (enc3 x) (enc3 y) : ℂ)) / ((Real.sqrt 2 : ℝ) : ℂ) := by
  have h := u3_rel x y
  rw [zC5_eq] at h
  simp only at h
  rw [zC5T3_entries (enc3 x) (enc3 y), toC_sqrt2_scaled, sqrt2_pow_eight] at h
  rw [eq_div_iff sqrt2_ne_zero_c]
  linear_combination (-(((Real.sqrt 2 : ℝ) : ℂ)) / 16) * h +
    (((u3m (enc3 x) (enc3 y) : ℂ)) / 2) * sqrt2_sq


/-- Claim C5: the tape of the U3/CNOT notebook's `circuit()` uses exactly
the gate names `U3` and `CNOT`, and the circuit matrix over wire order
`[0, 1, 2]` equals `1/√2` times the notebook's 8×8 integer matrix —
exactly, hence within the check's relative tolerance `1e-5` (and numpy's
default `atol = 1e-8`). -/
theorem u3_circuit_correct :
    (u3_gate_names.toFinset.card = 2 ∧ "U3" ∈ u3_gate_names ∧
      "CNOT" ∈ u3_gate_names) ∧
    (∀ x y : Q3, u3CircuitC x y =
      ((u3m (enc3 x) (enc3 y) : ℂ)) / ((Real.sqrt 2 : ℝ) : ℂ)) ∧
    (∀ x y : Q3,
      |(u3CircuitC x y).re - 1 / Real.sqrt 2 * ((u3m (enc3 x) (enc3 y) : ℤ) : ℝ)| ≤
        1 / 100000000 + 1 / 100000 *
          |1 / Real.sqrt 2 * ((u3m (enc3 x) (enc3 y) : ℤ) : ℝ)|) := by
  refine ⟨by decide, u3CircuitC_entries, ?_⟩
  intro x y
  have hval : u3CircuitC x y =
      ((((u3m (enc3 x) (enc3 y) : ℤ) : ℝ) / Real.sqrt 2 : ℝ) : ℂ) := by
    rw [u3CircuitC_entries]
    push_cast
    ring
  rw [hval, Complex.ofReal_re,
    show ((u3m (enc3 x) (enc3 y) : ℤ) : ℝ) / Real.sqrt 2 -
      1 / Real.sqrt 2 * ((u3m (enc3 x) (enc3 y) : ℤ) : ℝ) = 0 by ring, abs_zero]
  positivity



/-! ## The H/T/CNOT universality notebook -/

/-- Two-qubit complex matrices indexed by basis states. -/
abbrev CMat2 := Q2 → Q2 → ℂ

/-- Two-qubit integer-cyclotomic matrices. -/
abbrev ZMat2 := Q2 → Q2 → Z8

/-- The index of a two-qubit basis state in wire order `[0, 1]` (wire 0
most significant), as used by `qml.matrix`. -/
def enc2 (x : Q2) : Fin 4 := ⟨2 * x.1.val + x.2.val, by omega⟩

/-- `qml.Hadamard(wires=1)` on two qubits. -/
noncomputable def hadamard1 : CMat2 := fun x y =>
  if x.1 = y.1 then (if x.2 = 1 ∧ y.2 = 1 then -1 else 1) / (Real.sqrt 2 : ℂ) else 0

/-- `qml.T(wires=0)`, the diagonal gate `diag(1, exp(iπ/4))`; `zeta` is
exactly `exp(iπ/4)`. -/
noncomputable def tgate0 : CMat2 := fun x y =>
  if x = y then (if x.1 = 1 then zeta else 1) else 0

/-- `qml.T(wires=1)`. -/
noncomputable def tgate1 : CMat2 := fun x y =>
  if x = y then (if x.2 = 1 then zeta else 1) else 0

/-- `qml.CNOT(wires=[1, 0])`: wire 1 controls, wire 0 is the target. -/
def cnot10 : CMat2 := fun x y =>
  if x.1 = y.1 + y.2 ∧ x.2 = y.2 then 1 else 0

/-- Matrix product of two 4×4 complex matrices (sum over the four basis
states written out). -/
noncomputable def cmul2 (A B : CMat2) : CMat2 := fun i j =>
  A i (0, 0) * B (0, 0) j + A i (0, 1) * B (0, 1) j +
  A i (1, 0) * B (1, 0) j + A i (1, 1) * B (1, 1) j

/-- Matrix product over the cyclotomic ring. -/
def zmul2 (A B : ZMat2) : ZMat2 := fun i j =>
  zadd (zmul (A i (0, 0)) (B (0, 0) j)) (zadd (zmul (A i (0, 1)) (B (0, 1) j))
    (zadd (zmul (A i (1, 0)) (B (1, 0) j)) (zmul (A i (1, 1)) (B (1, 1) j))))

/-- `√2`-scaled Hadamard on wire 0 over the cyclotomic ring. -/
def zH0g4 : ZMat2 := fun x y =>
  if x.2 = y.2 then (if x.1 = 1 ∧ y.1 = 1 then ⟨-1, 0, 0, 0⟩ else ⟨1, 0, 0, 0⟩)
  else ⟨0, 0, 0, 0⟩

/-- `√2`-scaled Hadamard on wire 1. -/
def zH1g4 : ZMat2 := fun x y =>
  if x.1 = y.1 then (if x.2 = 1 ∧ y.2 = 1 then ⟨-1, 0, 0, 0⟩ else ⟨1, 0, 0, 0⟩)
  else ⟨0, 0, 0, 0⟩

/-- `√2`-scaled T gate on wire 0: `diag(√2, √2·ζ) = diag(ζ - ζ³, 1 + ζ²)`. -/
def zT0g4 : ZMat2 := fun x y =>
  if x = y then (if x.1 = 1 then ⟨1, 0, 1, 0⟩ else ⟨0, 1, 0, -1⟩) else ⟨0, 0, 0, 0⟩

/-- `√2`-scaled T gate on wire 1. -/
def zT1g4 : ZMat2 := fun x y =>
  if x = y then (if x.2 = 1 then ⟨1, 0, 1, 0⟩ else ⟨0, 1, 0, -1⟩) else ⟨0, 0, 0, 0⟩

/-- `√2`-scaled CNOT with control wire 0. -/
def zCX01g : ZMat2 := fun x y =>
  if x.1 = y.1 ∧ x.2 = y.1 + y.2 then ⟨0, 1, 0, -1⟩ else ⟨0, 0, 0, 0⟩

/-- `√2`-scaled CNOT with control wire 1. -/
def zCX10g : ZMat2 := fun x y =>
  if x.1 = y.1 + y.2 ∧ x.2 = y.2 then ⟨0, 1, 0, -1⟩ else ⟨0, 0, 0, 0⟩


/-- The `√2`-scaled cyclotomic mirror of the 37-gate sequence `U()`
(first-applied gate innermost). -/
def zU4 : ZMat2 :=
  zmul2 zH1g4 (zmul2 zH0g4 (zmul2 zT1g4 (zmul2 zT1g4 (zmul2 zT0g4 (zmul2 zT0g4 (zmul2 zT0g4 (zmul2 zT0g4 (zmul2 zT0g4 (zmul2 zT0g4 (zmul2 zCX01g (zmul2 zH0g4 (zmul2 zT0g4 (zmul2 zT0g4 (zmul2 zT0g4 (zmul2 zT0g4 (zmul2 zT0g4 (zmul2 zT0g4 (zmul2 zT0g4 (zmul2 zH1g4 (zmul2 zH0g4 (zmul2 zCX01g (zmul2 zH1g4 (zmul2 zH0g4 (zmul2 zT1g4 (zmul2 zT1g4 (zmul2 zT1g4 (zmul2 zT1g4 (zmul2 zT1g4 (zmul2 zT1g4 (zmul2 zT1g4 (zmul2 zT0g4 (zmul2 zH0g4 (zmul2 zCX01g (zmul2 zCX01g (zmul2 zH1g4 zH0g4)))))))))))))))))))))))))))))))))))

/-- The matrix of the notebook-tape `U()`: the 37 gates
H0, H1, CNOT, CNOT, H0, T0, 7×T1, H0, H1, CNOT, H0, H1, 7×T0, H0, CNOT,
6×T0, 2×T1, H0, H1 (first-applied gate innermost). -/
noncomputable def UmatC : CMat2 :=
  cmul2 hadamard1 (cmul2 hadamard0 (cmul2 tgate1 (cmul2 tgate1 (cmul2 tgate0 (cmul2 tgate0 (cmul2 tgate0 (cmul2 tgate0 (cmul2 tgate0 (cmul2 tgate0 (cmul2 cnot01 (cmul2 hadamard0 (cmul2 tgate0 (cmul2 tgate0 (cmul2 tgate0 (cmul2 tgate0 (cmul2 tgate0 (cmul2 tgate0 (cmul2 tgate0 (cmul2 hadamard1 (cmul2 hadamard0 (cmul2 cnot01 (cmul2 hadamard1 (cmul2 hadamard0 (cmul2 tgate1 (cmul2 tgate1 (cmul2 tgate1 (cmul2 tgate1 (cmul2 tgate1 (cmul2 tgate1 (cmul2 tgate1 (cmul2 tgate0 (cmul2 hadamard0 (cmul2 cnot01 (cmul2 cnot01 (cmul2 hadamard1 hadamard0)))))))))))))))))))))))))))))))))))

/-- The matrix of the notebook circuit
`CNOT[0,1]; H0; H1; U(); CNOT[1,0]; U(); H0; H1`. -/
noncomputable def swapCircuitC : CMat2 :=
  cmul2 hadamard1 (cmul2 hadamard0 (cmul2 UmatC (cmul2 cnot10
    (cmul2 UmatC (cmul2 hadamard1 (cmul2 hadamard0 cnot01))))))

/-- The `√2`-scaled cyclotomic mirror of `swapCircuitC`. -/
def zC4full : ZMat2 :=
  zmul2 zH1g4 (zmul2 zH0g4 (zmul2 zU4 (zmul2 zCX10g
    (zmul2 zU4 (zmul2 zH1g4 (zmul2 zH0g4 zCX01g))))))


def zC4T1 : Fin 4 → Fin 4 → Z8 :=
  ![![⟨4, 0, 0, 0⟩, ⟨4, 0, 0, 0⟩, ⟨0, 0, 0, 0⟩, ⟨0, 0, 0, 0⟩],
    ![⟨4, 0, 0, 0⟩, ⟨-4, 0, 0, 0⟩, ⟨0, 0, 0, 0⟩, ⟨0, 0, 0, 0⟩],
    ![⟨0, 0, 0, 0⟩, ⟨0, 0, 0, 0⟩, ⟨4, 0, 0, 0⟩, ⟨4, 0, 0, 0⟩],
    ![⟨0, 0, 0, 0⟩, ⟨0, 0, 0, 0⟩, ⟨4, 0, 0, 0⟩, ⟨-4, 0, 0, 0⟩]]

def zC4T2 : Fin 4 → Fin 4 → Z8 :=
  ![![⟨0, 16, 0, -16⟩, ⟨0, 16, 0, -16⟩, ⟨0, 0, 0, 0⟩, ⟨0, 0, 0, 0⟩],
    ![⟨0, -16, 0, 16⟩, ⟨0, 16, 0, -16⟩, ⟨0, 0, 0, 0⟩, ⟨0, 0, 0, 0⟩],
    ![⟨0, 0, 0, 0⟩, ⟨0, 0, 0, 0⟩, ⟨16, 0, 16, 0⟩, ⟨16, 0, 16, 0⟩],
    ![⟨0, 0, 0, 0⟩, ⟨0, 0, 0, 0⟩, ⟨-16, 0, -16, 0⟩, ⟨16, 0, 16, 0⟩]]

def zC4T3 : Fin 4 → Fin 4 → Z8 :=
  ![![⟨64, 0, 0, -64⟩, ⟨64, 0, 0, 64⟩, ⟨64, 64, 0, 0⟩, ⟨-64, 64, 0, 0⟩],
    ![⟨64, 0, 0, 64⟩, ⟨64, 0, 0, -64⟩, ⟨-64, 64, 0, 0⟩, ⟨64, 64, 0, 0⟩],
    ![⟨64, 0, 0, -64⟩, ⟨64, 0, 0, 64⟩, ⟨-64, -64, 0, 0⟩, ⟨64, -64, 0, 0⟩],
    ![⟨64, 0, 0, 64⟩, ⟨64, 0, 0, -64⟩, ⟨64, -64, 0, 0⟩, ⟨-64, -64, 0, 0⟩]]

def zC4T4 : Fin 4 → Fin 4 → Z8 :=
  ![![⟨0, 512, 0, -512⟩, ⟨0, 512, 0, -512⟩, ⟨0, 0, 0, 0⟩, ⟨0, 0, 0, 0⟩],
    ![⟨0, 0, 0, 0⟩, ⟨0, 0, 0, 0⟩, ⟨0, 512, 0, -512⟩, ⟨0, -512, 0, 512⟩],
    ![⟨0, 0, 0, 0⟩, ⟨0, 0, 0, 0⟩, ⟨-512, 0, 512, 0⟩, ⟨-512, 0, 512, 0⟩],
    ![⟨512, 0, 512, 0⟩, ⟨-512, 0, -512, 0⟩, ⟨0, 0, 0, 0⟩, ⟨0, 0, 0, 0⟩]]

def zC4T5 : Fin 4 → Fin 4 → Z8 :=
  ![![⟨4096, 0, 0, 0⟩, ⟨4096, 0, 0, 0⟩, ⟨0, 0, 0, 0⟩, ⟨0, 0, 0, 0⟩],
    ![⟨0, 0, 0, 0⟩, ⟨0, 0, 0, 0⟩, ⟨4096, 0, 0, 0⟩, ⟨-4096, 0, 0, 0⟩],
    ![⟨0, 0, 0, 0⟩, ⟨0, 0, 0, 0⟩, ⟨4096, 0, 0, 0⟩, ⟨4096, 0, 0, 0⟩],
    ![⟨0, 0, -4096, 0⟩, ⟨0, 0, 4096, 0⟩, ⟨0, 0, 0, 0⟩, ⟨0, 0, 0, 0⟩]]

def zC4T6 : Fin 4 → Fin 4 → Z8 :=
  ![![⟨16384, 0, 0, 0⟩, ⟨16384, 0, 0, 0⟩, ⟨16384, 0, 0, 0⟩, ⟨16384, 0, 0, 0⟩],
    ![⟨0, 0, -16384, 0⟩, ⟨0, 0, 16384, 0⟩, ⟨16384, 0, 0, 0⟩, ⟨-16384, 0, 0, 0⟩],
    ![⟨0, -16384, 0, 0⟩, ⟨0, 16384, 0, 0⟩, ⟨0, 0, 0, 16384⟩, ⟨0, 0, 0, -16384⟩],
    ![⟨0, 0, 0, 16384⟩, ⟨0, 0, 0, 16384⟩, ⟨0, 0, 0, -16384⟩, ⟨0, 0, 0, -16384⟩]]

def zC4T7 : Fin 4 → Fin 4 → Z8 :=
  ![![⟨0, 262144, 0, -262144⟩, ⟨0, 0, 0, 0⟩, ⟨0, 0, 0, 0⟩, ⟨0, 0, 0, 0⟩],
    ![⟨0, 0, 0, 0⟩, ⟨0, 0, 0, 0⟩, ⟨0, 0, 0, -262144⟩, ⟨0, 262144, 0, 0⟩],
    ![⟨0, 0, 0, 0⟩, ⟨0, 0, 0, 0⟩, ⟨0, 262144, 0, 0⟩, ⟨0, 0, 0, -262144⟩],
    ![⟨0, 0, 0, 0⟩, ⟨0, 262144, 0, -262144⟩, ⟨0, 0, 0, 0⟩, ⟨0, 0, 0, 0⟩]]

def zC4Final : Fin 4 → Fin 4 → Z8 :=
  ![![⟨1099511627776, 0, 0, 0⟩, ⟨0, 0, 0, 0⟩, ⟨0, 0, 0, 0⟩, ⟨0, 0, 0, 0⟩],
    ![⟨0, 0, 0, 0⟩, ⟨0, 0, 0, 0⟩, ⟨1099511627776, 0, 0, 0⟩, ⟨0, 0, 0, 0⟩],
    ![⟨0, 0, 0, 0⟩, ⟨1099511627776, 0, 0, 0⟩, ⟨0, 0, 0, 0⟩, ⟨0, 0, 0, 0⟩],
    ![⟨0, 0, 0, 0⟩, ⟨0, 0, 0, 0⟩, ⟨0, 0, 0, 0⟩, ⟨1099511627776, 0, 0, 0⟩]]

theorem zC4_s1 : zmul2 zH0g4 (zmul2 zCX01g (zmul2 zCX01g (zmul2 zH1g4 zH0g4))) =
    (fun x y => zC4T1 (enc2 x) (enc2 y)) := by decide

theorem zC4_s2 : zmul2 zT1g4 (zmul2 zT1g4 (zmul2 zT1g4 (zmul2 zT1g4 (zmul2 zT0g4 (fun x y => zC4T1 (enc2 x) (enc2 y)))))) =
    (fun x y => zC4T2 (enc2 x) (enc2 y)) := by decide

theorem zC4_s3 : zmul2 zH1g4 (zmul2 zH0g4 (zmul2 zT1g4 (zmul2 zT1g4 (zmul2 zT1g4 (fun x y => zC4T2 (enc2 x) (enc2 y)))))) =
    (fun x y => zC4T3 (enc2 x) (enc2 y)) := by decide

theorem zC4_s4 : zmul2 zT0g4 (zmul2 zT0g4 (zmul2 zH1g4 (zmul2 zH0g4 (zmul2 zCX01g (fun x y => zC4T3 (enc2 x) (enc2 y)))))) =
    (fun x y => zC4T4 (enc2 x) (enc2 y)) := by decide

theorem zC4_s5 : zmul2 zT0g4 (zmul2 zT0g4 (zmul2 zT0g4 (zmul2 zT0g4 (zmul2 zT0g4 (fun x y => zC4T4 (enc2 x) (enc2 y)))))) =
    (fun x y => zC4T5 (enc2 x) (enc2 y)) := by decide

theorem zC4_s6 : zmul2 zT0g4 (zmul2 zT0g4 (zmul2 zT0g4 (zmul2 zCX01g (zmul2 zH0g4 (fun x y => zC4T5 (enc2 x) (enc2 y)))))) =
    (fun x y => zC4T6 (enc2 x) (enc2 y)) := by decide

set_option maxHeartbeats 2000000 in
theorem zC4_s7 : zmul2 zH1g4 (zmul2 zH0g4 (zmul2 zT1g4 (zmul2 zT1g4 (zmul2 zT0g4 (zmul2 zT0g4 (zmul2 zT0g4 (fun x y => zC4T6 (enc2 x) (enc2 y)))))))) =
    (fun x y => zC4T7 (enc2 x) (enc2 y)) := by decide

set_option maxHeartbeats 4000000 in
theorem zC4_final : zmul2 zH1g4 (zmul2 zH0g4 (zmul2 (fun x y => zC4T7 (enc2 x) (enc2 y))
    (zmul2 zCX10g (zmul2 (fun x y => zC4T7 (enc2 x) (enc2 y))
      (zmul2 zH1g4 (zmul2 zH0g4 zCX01g)))))) =
    (fun x y => zC4Final (enc2 x) (enc2 y)) := by decide


theorem zU4_eq : zU4 = fun x y => zC4T7 (enc2 x) (enc2 y) := by
  unfold zU4
  rw [zC4_s1, zC4_s2, zC4_s3, zC4_s4, zC4_s5, zC4_s6, zC4_s7]

theorem zC4full_eq : zC4full = fun x y => zC4Final (enc2 x) (enc2 y) := by
  unfold zC4full
  rw [zU4_eq, zC4_final]

/-- Correspondence between a two-qubit cyclotomic matrix and a complex
matrix at a given `√2` scaling power. -/
def Rel2 (k : ℕ) (zA : ZMat2) (cA : CMat2) : Prop :=
  ∀ x y, toC (zA x y) = ((Real.sqrt 2 : ℝ) : ℂ) ^ k * cA x y

/-- The correspondence is multiplicative, adding the scaling powers. -/
theorem rel2_mul {m n : ℕ} {zA zB : ZMat2} {cA cB : CMat2}
    (hA : Rel2 m zA cA) (hB : Rel2 n zB cB) :
    Rel2 (m + n) (zmul2 zA zB) (cmul2 cA cB) := by
  intro x y
  simp only [zmul2, cmul2, toC_add, toC_mul]
  rw [hA, hA, hA, hA, hB, hB, hB, hB]
  ring

theorem corr4_H0 : Rel2 1 zH0g4 hadamard0 := by
  intro x y
  by_cases hc : x.2 = y.2
  · by_cases hd : x.1 = 1 ∧ y.1 = 1 <;>
      simp [zH0g4, hadamard0, hc, hd, toC] <;>
      (try first
        | linear_combination div_self sqrt2_ne_zero_c
        | linear_combination (-1 : ℂ) * div_self sqrt2_ne_zero_c)

  · simp [zH0g4, hadamard0, hc, toC_zero]

theorem corr4_H1 : Rel2 1 zH1g4 hadamard1 := by
  intro x y
  by_cases hc : x.1 = y.1
  · by_cases hd : x.2 = 1 ∧ y.2 = 1 <;>
      simp [zH1g4, hadamard1, hc, hd, toC] <;>
      (try first
        | linear_combination div_self sqrt2_ne_zero_c
        | linear_combination (-1 : ℂ) * div_self sqrt2_ne_zero_c)

  · simp [zH1g4, hadamard1, hc, toC_zero]

theorem corr4_T0 : Rel2 1 zT0g4 tgate0 := by
  intro x y
  by_cases hc : x = y
  · subst hc
    by_cases hd : x.1 = 1 <;>
      simp [zT0g4, tgate0, hd, toC] <;>
      (try first
        | linear_combination one_add_zeta_sq
        | linear_combination zeta_sub_cube)

  · simp [zT0g4, tgate0, hc, toC_zero]

theorem corr4_T1 : Rel2 1 zT1g4 tgate1 := by
  intro x y
  by_cases hc : x = y
  · subst hc
    by_cases hd : x.2 = 1 <;>
      simp [zT1g4, tgate1, hd, toC] <;>
      (try first
        | linear_combination one_add_zeta_sq
        | linear_combination zeta_sub_cube)

  · simp [zT1g4, tgate1, hc, toC_zero]

theorem corr4_CX01 : Rel2 1 zCX01g cnot01 := by
  intro x y
  by_cases hc : x.1 = y.1 ∧ x.2 = y.1 + y.2 <;>
    simp [zCX01g, cnot01, hc, toC, toC_zero] <;>
    (try linear_combination zeta_sub_cube)

theorem corr4_CX10 : Rel2 1 zCX10g cnot10 := by
  intro x y
  by_cases hc : x.1 = y.1 + y.2 ∧ x.2 = y.2 <;>
    simp [zCX10g, cnot10, hc, toC, toC_zero] <;>
    (try linear_combination zeta_sub_cube)

/-- The cyclotomic mirror tracks `U()` at scale `(√2)^37`. -/
theorem ht_u_rel : Rel2 37 zU4 UmatC := by
  unfold zU4 UmatC
  exact (rel2_mul corr4_H1 (rel2_mul corr4_H0 (rel2_mul corr4_T1 (rel2_mul corr4_T1 (rel2_mul corr4_T0 (rel2_mul corr4_T0 (rel2_mul corr4_T0 (rel2_mul corr4_T0 (rel2_mul corr4_T0 (rel2_mul corr4_T0 (rel2_mul corr4_CX01 (rel2_mul corr4_H0 (rel2_mul corr4_T0 (rel2_mul corr4_T0 (rel2_mul corr4_T0 (rel2_mul corr4_T0 (rel2_mul corr4_T0 (rel2_mul corr4_T0 (rel2_mul corr4_T0 (rel2_mul corr4_H1 (rel2_mul corr4_H0 (rel2_mul corr4_CX01 (rel2_mul corr4_H1 (rel2_mul corr4_H0 (rel2_mul corr4_T1 (rel2_mul corr4_T1 (rel2_mul corr4_T1 (rel2_mul corr4_T1 (rel2_mul corr4_T1 (rel2_mul corr4_T1 (rel2_mul corr4_T1 (rel2_mul corr4_T0 (rel2_mul corr4_H0 (rel2_mul corr4_CX01 (rel2_mul corr4_CX01 (rel2_mul corr4_H1 corr4_H0))))))))))))))))))))))))))))))))))))

/-- The cyclotomic mirror tracks the full circuit at scale `(√2)^80`. -/
theorem ht_swap_rel : Rel2 80 zC4full swapCircuitC := by
  unfold zC4full swapCircuitC
  exact rel2_mul corr4_H1 (rel2_mul corr4_H0 (rel2_mul ht_u_rel (rel2_mul corr4_CX10
    (rel2_mul ht_u_rel (rel2_mul corr4_H1 (rel2_mul corr4_H0 corr4_CX01))))))

/-- The SWAP matrix the check compares against. -/
def swapm : Fin 4 → Fin 4 → ℤ :=
  ![![1, 0, 0, 0],
    ![0, 0, 1, 0],
    ![0, 1, 0, 0],
    ![0, 0, 0, 1]]

theorem zC4Final_entries : ∀ i j : Fin 4, zC4Final i j =
    ⟨1099511627776 * swapm i j, 0, 0, 0⟩ := by decide

theorem toC_int (m : ℤ) : toC ⟨m, 0, 0, 0⟩ = (m : ℂ) := by
  simp [toC]

theorem sqrt2_pow_eighty : ((Real.sqrt 2 : ℝ) : ℂ) ^ 80 = 1099511627776 := by
  rw [show ((Real.sqrt 2 : ℝ) : ℂ) ^ 80 =
    (((Real.sqrt 2 : ℝ) : ℂ) * ((Real.sqrt 2 : ℝ) : ℂ)) ^ 40 by ring, sqrt2_sq]
  norm_num

/-- Exact value of the entries of the H/T/CNOT circuit matrix: the SWAP
matrix. -/
theorem swapCircuitC_entries (x y : Q2) :
    swapCircuitC x y = ((swapm (enc2 x) (enc2 y) : ℤ) : ℂ) := by
  have h := ht_swap_rel x y
  rw [zC4full_eq] at h
  simp only at h
  rw [zC4Final_entries (enc2 x) (enc2 y), toC_int, sqrt2_pow_eighty] at h
  push_cast at h ⊢
  linear_combination (-1 / 1099511627776 : ℂ) * h

/-- The gate names of the tape of `U()`, in application order. -/
def ht_gate_names : List String :=
  ["Hadamard", "Hadamard", "CNOT", "CNOT", "Hadamard", "T", "T", "T", "T",
   "T", "T", "T", "T", "Hadamard", "Hadamard", "CNOT", "Hadamard", "Hadamard",
   "T", "T", "T", "T", "T", "T", "T", "Hadamard", "CNOT", "T", "T", "T", "T",
   "T", "T", "T", "T", "Hadamard", "Hadamard"]

/-- Claim C4: the tape of `U()` uses exactly the gate names Hadamard, T and
CNOT, and the matrix of the circuit `CNOT[0,1]; H⊗H; U; CNOT[1,0]; U; H⊗H`
equals the SWAP matrix exactly — hence within the check's default relative
tolerance `1e-5` (and numpy's default `atol = 1e-8`). -/
theorem ht_cnot_circuit_correct :
    (ht_gate_names.toFinset.card = 3 ∧ "Hadamard" ∈ ht_gate_names ∧
      "CNOT" ∈ ht_gate_names ∧ "T" ∈ ht_gate_names) ∧
    (∀ x y : Q2, swapCircuitC x y = ((swapm (enc2 x) (enc2 y) : ℤ) : ℂ)) ∧
    (∀ x y : Q2,
      |(swapCircuitC x y).re - ((swapm (enc2 x) (enc2 y) : ℤ) : ℝ)| ≤
        1 / 100000000 + 1 / 100000 * |((swapm (enc2 x) (enc2 y) : ℤ) : ℝ)|) := by
  refine ⟨by decide, swapCircuitC_entries, ?_⟩
  intro x y
  rw [swapCircuitC_entries, Complex.intCast_re, sub_self, abs_zero]
  positivity


end PennyCamp
